import Mathlib

/-!
# Drone simulator core of `Proyecto.cpp`

A shallow embedding of the algorithmic core of the drone simulator:
the motion integrator `processInput`, the bounding-box extractor `ExtractData`,
the signal/respawn check, the battery decay and the HUD geometry generators of
the main loop.

Scalars (`float` in the source) are read exactly: every definition is written
over an arbitrary linearly ordered field `K` (so it runs on `ℚ`), and the
theorems about lengths are stated over `ℝ`, where `sqrt` is `Real.sqrt`.
The `int` values of the timer are `Int` with C's truncating `/` and `%`.
-/

namespace Proyecto

/-! ## Scalars and `glm::vec3` -/

/-- The square root of the scalar type, the primitive behind `glm::length`
and `glm::normalize`. -/
class GlmSqrt (K : Type) where
  sqrt : K → K

/-- Over the reals the square root is `Real.sqrt`. -/
noncomputable instance instGlmSqrtReal : GlmSqrt ℝ := ⟨Real.sqrt⟩

/-- The type `glm::vec3`: three scalar components. -/
@[ext] structure Vec3 (K : Type) where
  x : K
  y : K
  z : K

section Glm

variable {K : Type} [LinearOrderedField K]

/-- The vector `glm::vec3(s)`: all three components equal to `s`. -/
def Vec3.splat (s : K) : Vec3 K := ⟨s, s, s⟩

/-- Component-wise `a + b`. -/
def Vec3.add (a b : Vec3 K) : Vec3 K := ⟨a.x + b.x, a.y + b.y, a.z + b.z⟩

/-- Component-wise `a - b`. -/
def Vec3.sub (a b : Vec3 K) : Vec3 K := ⟨a.x - b.x, a.y - b.y, a.z - b.z⟩

/-- Vector times scalar, `v * s`. -/
def Vec3.scale (v : Vec3 K) (s : K) : Vec3 K := ⟨v.x * s, v.y * s, v.z * s⟩

/-- Vector divided by scalar, `v / s`. -/
def Vec3.divS (v : Vec3 K) (s : K) : Vec3 K := ⟨v.x / s, v.y / s, v.z / s⟩

/-- The dot product `glm::dot(a, b)`. -/
def Vec3.dot (a b : Vec3 K) : K := a.x * b.x + a.y * b.y + a.z * b.z

/-- The function `glm::inversesqrt(x) = 1 / sqrt(x)`. -/
def inversesqrt [GlmSqrt K] (x : K) : K := 1 / GlmSqrt.sqrt x

/-- The function `glm::length(v) = sqrt(dot(v, v))`. -/
def Vec3.length [GlmSqrt K] (v : Vec3 K) : K := GlmSqrt.sqrt (Vec3.dot v v)

/-- The function `glm::normalize(v) = v * inversesqrt(dot(v, v))`. -/
def Vec3.normalize [GlmSqrt K] (v : Vec3 K) : Vec3 K :=
  Vec3.scale v (inversesqrt (Vec3.dot v v))

/-- The function `glm::min(a, b)`, component-wise `(b < a) ? b : a`. -/
def Vec3.min (a b : Vec3 K) : Vec3 K :=
  ⟨if b.x < a.x then b.x else a.x, if b.y < a.y then b.y else a.y,
   if b.z < a.z then b.z else a.z⟩

/-- The function `glm::max(a, b)`, component-wise `(a < b) ? b : a`. -/
def Vec3.max (a b : Vec3 K) : Vec3 K :=
  ⟨if a.x < b.x then b.x else a.x, if a.y < b.y then b.y else a.y,
   if a.z < b.z then b.z else a.z⟩

end Glm

/-! ## Configuration constants (lines 17-25, 41) -/

section Config

variable {K : Type} [LinearOrderedField K]

/-- The constant `MAX_DISTANCE = 100.0f`. -/
def MAX_DISTANCE : K := 100

/-- The constant `RESPAWN_DELAY = 2.0f`. -/
def RESPAWN_DELAY : K := 2

/-- The constant `ACCELERATION = 35.0f`. -/
def ACCELERATION : K := 35

/-- The constant `FRICTION = 0.94f`. -/
def FRICTION : K := 94 / 100

/-- The constant `MAX_SPEED = 12.0f`. -/
def MAX_SPEED : K := 12

/-- The constant `DRONE_RADIUS = 0.3f`. -/
def DRONE_RADIUS : K := 3 / 10

/-- The constant `SPAWN_POINT = (0, 2, 15)`. -/
def SPAWN_POINT : Vec3 K := ⟨0, 2, 15⟩

end Config

/-! ## State (lines 28-48) -/

/-- The struct `DroneState`. -/
structure DroneState (K : Type) where
  thermalVision : Bool
  vKeyPressed : Bool
  lightsOn : Bool
  lKeyPressed : Bool
  signalLost : Bool
  signalLostTimer : K
  velocity : Vec3 K
  startTime : K
  batteryPercent : K

/-- The fields of the `Camera` object that the core reads and writes. -/
structure Camera (K : Type) where
  Position : Vec3 K
  Front : Vec3 K
  Right : Vec3 K

/-- The struct `BoundingBox`. -/
structure BoundingBox (K : Type) where
  min : Vec3 K
  max : Vec3 K

/-- The globals `drone` and `camera`. -/
structure World (K : Type) where
  drone : DroneState K
  camera : Camera K

/-- The key and mouse-button states polled by `processInput`
(`true` is `GLFW_PRESS`). -/
structure Keys where
  w : Bool
  s : Bool
  a : Bool
  d : Bool
  e : Bool
  q : Bool
  v : Bool
  l : Bool
  mouseMiddle : Bool

/-! ## The motion integrator `processInput` (lines 82-124) -/

section Motion

variable {K : Type} [LinearOrderedField K]

/-- Lines 96-102: the desired direction accumulated from the six keys. -/
def inputDir (cam : Camera K) (k : Keys) : Vec3 K :=
  let d0 : Vec3 K := Vec3.splat 0
  let d1 := if k.w then Vec3.add d0 cam.Front else d0
  let d2 := if k.s then Vec3.sub d1 cam.Front else d1
  let d3 := if k.a then Vec3.sub d2 cam.Right else d2
  let d4 := if k.d then Vec3.add d3 cam.Right else d3
  let d5 : Vec3 K := if k.e then ⟨d4.x, d4.y + 1, d4.z⟩ else d4
  let d6 : Vec3 K := if k.q then ⟨d5.x, d5.y - 1, d5.z⟩ else d5
  d6

/-- Lines 104-105: the acceleration step. -/
def accelerate [GlmSqrt K] (dir vel : Vec3 K) (deltaTime : K) : Vec3 K :=
  if Vec3.length dir > 0 then
    Vec3.add vel (Vec3.scale (Vec3.scale (Vec3.normalize dir) ACCELERATION) deltaTime)
  else vel

/-- Lines 107-108: the speed clamp. -/
def clampSpeed [GlmSqrt K] (vel : Vec3 K) : Vec3 K :=
  if Vec3.length vel > MAX_SPEED then Vec3.scale (Vec3.normalize vel) MAX_SPEED else vel

/-- Line 110: the friction step. -/
def applyFriction (vel : Vec3 K) : Vec3 K := Vec3.scale vel FRICTION

/-- The velocity of line 110: acceleration, clamp, friction. -/
def integratedVelocity [GlmSqrt K] (w : World K) (k : Keys) (deltaTime : K) : Vec3 K :=
  applyFriction (clampSpeed (accelerate (inputDir w.camera k) w.drone.velocity deltaTime))

/-- Line 111: the candidate `nextPos`. -/
def candidate [GlmSqrt K] (w : World K) (k : Keys) (deltaTime : K) : Vec3 K :=
  Vec3.add w.camera.Position (Vec3.scale (integratedVelocity w k deltaTime) deltaTime)

/-- Lines 115-117: the overlap test of the radius-inflated point against one box. -/
def overlaps (nextPos : Vec3 K) (box : BoundingBox K) : Bool :=
  decide (nextPos.x + DRONE_RADIUS > box.min.x) && decide (nextPos.x - DRONE_RADIUS < box.max.x) &&
  decide (nextPos.y + DRONE_RADIUS > box.min.y) && decide (nextPos.y - DRONE_RADIUS < box.max.y) &&
  decide (nextPos.z + DRONE_RADIUS > box.min.z) && decide (nextPos.z - DRONE_RADIUS < box.max.z)

/-- Lines 114-121: the scan over `collisionBoxes`, stopping at the first hit. -/
def hitsAny (nextPos : Vec3 K) : List (BoundingBox K) → Bool
  | [] => false
  | box :: rest => if overlaps nextPos box then true else hitsAny nextPos rest

/-- Lines 86-92: the edge-triggered toggles of thermal vision and lights. -/
def toggles (dr : DroneState K) (k : Keys) : DroneState K :=
  let thermal := if k.v && !dr.vKeyPressed then !dr.thermalVision else dr.thermalVision
  let lights := if k.l && !dr.lKeyPressed then !dr.lightsOn else dr.lightsOn
  { dr with thermalVision := thermal, vKeyPressed := k.v, lightsOn := lights, lKeyPressed := k.l }

/-- The function `processInput` on the globals `drone`, `camera`, `deltaTime`
and `collisionBoxes` (the window-close request of the escape key is not part
of this state). -/
def processInput [GlmSqrt K] (w : World K) (k : Keys) (deltaTime : K)
    (collisionBoxes : List (BoundingBox K)) : World K :=
  let dr := toggles w.drone k
  let ghostMode := k.mouseMiddle
  let vel := integratedVelocity w k deltaTime
  let nextPos := Vec3.add w.camera.Position (Vec3.scale vel deltaTime)
  if !ghostMode && hitsAny nextPos collisionBoxes then
    { drone := { dr with velocity := Vec3.splat 0 }, camera := w.camera }
  else
    { drone := { dr with velocity := vel },
      camera := { w.camera with Position := nextPos } }

end Motion

/-! ## The bounding-volume extractor `ExtractData` (lines 61-80) -/

section Extract

variable {K : Type} [LinearOrderedField K]

/-- The literal `1e10f` seeding `minP` (and, negated, `maxP`). -/
def BIG : K := 10000000000

/-- Lines 65-70: the box of one mesh, given the positions of its vertices. -/
def meshBox (vertices : List (Vec3 K)) : BoundingBox K :=
  let init : Vec3 K × Vec3 K := (Vec3.splat BIG, Vec3.splat (-BIG))
  let r := vertices.foldl (fun acc v => (Vec3.min acc.1 v, Vec3.max acc.2 v)) init
  { min := r.1, max := r.2 }

/-- Lines 76-78: the centroid of one light mesh. -/
def meshCenter (vertices : List (Vec3 K)) : Vec3 K :=
  Vec3.divS (vertices.foldl (fun center v => Vec3.add center v) (Vec3.splat 0))
    (vertices.length : K)

/-- The function `ExtractData`: the new values of `collisionBoxes` and
`lampPositions`, a mesh being the list of its vertex positions. -/
def ExtractData (house lights : List (List (Vec3 K))) :
    List (BoundingBox K) × List (Vec3 K) :=
  (house.map meshBox, lights.map meshCenter)

end Extract

/-! ## HUD geometry (lines 241-357) -/

section Hud

variable {K : Type} [LinearOrderedField K]

/-- The function `createDigitVertices`: the floats appended to `v` for one
digit at `(x, y)` with size `s`; nothing is appended outside `0..9`. -/
def createDigitVertices (digit : Int) (x y s : K) : List K :=
  match digit with
  | 0 => [x, y, 0, x, y + 2 * s, 0, x, y + 2 * s, 0, x + s, y + 2 * s, 0,
          x + s, y + 2 * s, 0, x + s, y, 0, x + s, y, 0, x, y, 0]
  | 1 => [x + s, y + 2 * s, 0, x + s, y, 0]
  | 2 => [x, y + 2 * s, 0, x + s, y + 2 * s, 0, x + s, y + 2 * s, 0, x + s, y + s, 0,
          x + s, y + s, 0, x, y + s, 0, x, y + s, 0, x, y, 0, x, y, 0, x + s, y, 0]
  | 3 => [x, y + 2 * s, 0, x + s, y + 2 * s, 0, x + s, y + 2 * s, 0, x + s, y, 0,
          x + s, y, 0, x, y, 0, x, y + s, 0, x + s, y + s, 0]
  | 4 => [x, y + 2 * s, 0, x, y + s, 0, x, y + s, 0, x + s, y + s, 0,
          x + s, y + 2 * s, 0, x + s, y, 0]
  | 5 => [x + s, y + 2 * s, 0, x, y + 2 * s, 0, x, y + 2 * s, 0, x, y + s, 0,
          x, y + s, 0, x + s, y + s, 0, x + s, y + s, 0, x + s, y, 0, x + s, y, 0, x, y, 0]
  | 6 => [x + s, y + 2 * s, 0, x, y + 2 * s, 0, x, y + 2 * s, 0, x, y, 0, x, y, 0, x + s, y, 0,
          x + s, y, 0, x + s, y + s, 0, x + s, y + s, 0, x, y + s, 0]
  | 7 => [x, y + 2 * s, 0, x + s, y + 2 * s, 0, x + s, y + 2 * s, 0, x + s, y, 0]
  | 8 => [x, y, 0, x, y + 2 * s, 0, x, y + 2 * s, 0, x + s, y + 2 * s, 0,
          x + s, y + 2 * s, 0, x + s, y, 0, x + s, y, 0, x, y, 0, x, y + s, 0, x + s, y + s, 0]
  | 9 => [x + s, y, 0, x + s, y + 2 * s, 0, x + s, y + 2 * s, 0, x, y + 2 * s, 0,
          x, y + 2 * s, 0, x, y + s, 0, x, y + s, 0, x + s, y + s, 0]
  | _ => []

/-- Lines 294-295 and 302-303: the two degenerate segments of a colon at
horizontal position `x`. -/
def colonVertices (x startY digitSize : K) : List K :=
  [x + digitSize * (3 / 10), startY + digitSize * (15 / 10), 0,
   x + digitSize * (3 / 10), startY + digitSize * (15 / 10), 0] ++
  [x + digitSize * (3 / 10), startY + digitSize * (5 / 10), 0,
   x + digitSize * (3 / 10), startY + digitSize * (5 / 10), 0]

/-- The six digit arguments that `createTimerVAO` passes to
`createDigitVertices`, left to right (lines 290-307). -/
def timerDigits (hours mins secs : Int) : List Int :=
  [Int.tdiv hours 10, Int.tmod hours 10, Int.tdiv mins 10, Int.tmod mins 10,
   Int.tdiv secs 10, Int.tmod secs 10]

/-- The function `createTimerVAO`, as the contents of the buffer `v` it uploads
(lines 279-307); the vertex-array name it returns is allocated in `timerHud`. -/
def createTimerVAO (hours mins secs : Int) : List K :=
  let startX : K := 60 / 100
  let startY : K := -(70 / 100)
  let digitSize : K := 12 / 1000
  let spacing : K := 35 / 1000
  let x0 := startX
  let v0 := createDigitVertices (Int.tdiv hours 10) x0 startY digitSize
  let x1 := x0 + spacing
  let v1 := v0 ++ createDigitVertices (Int.tmod hours 10) x1 startY digitSize
  let x2 := x1 + spacing
  let v2 := v1 ++ colonVertices x2 startY digitSize
  let x3 := x2 + spacing * (7 / 10)
  let v3 := v2 ++ createDigitVertices (Int.tdiv mins 10) x3 startY digitSize
  let x4 := x3 + spacing
  let v4 := v3 ++ createDigitVertices (Int.tmod mins 10) x4 startY digitSize
  let x5 := x4 + spacing
  let v5 := v4 ++ colonVertices x5 startY digitSize
  let x6 := x5 + spacing * (7 / 10)
  let v6 := v5 ++ createDigitVertices (Int.tdiv secs 10) x6 startY digitSize
  let x7 := x6 + spacing
  v6 ++ createDigitVertices (Int.tmod secs 10) x7 startY digitSize

/-- Line 349: the fill width of the battery gauge. -/
def batteryFillW (w percent : K) : K := (w - 8 / 1000) * (percent / 100)

/-- The function `createBatteryVAO`, as the contents of the buffer `v` it
uploads (lines 324-357); the vertex-array name it returns is allocated in
`callCreateBatteryVAO`. -/
def createBatteryVAO (percent : K) : List K :=
  let x : K := -(85 / 100)
  let y : K := 75 / 100
  let w : K := 8 / 100
  let h : K := 4 / 100
  let outline : List K :=
    [x, y, 0, x + w, y, 0,
     x + w, y, 0, x + w, y - h, 0,
     x + w, y - h, 0, x, y - h, 0,
     x, y - h, 0, x, y, 0]
  let tipW : K := 1 / 100
  let tip : List K :=
    [x + w, y - h * (3 / 10), 0, x + w + tipW, y - h * (3 / 10), 0,
     x + w + tipW, y - h * (3 / 10), 0, x + w + tipW, y - h * (7 / 10), 0,
     x + w + tipW, y - h * (7 / 10), 0, x + w, y - h * (7 / 10), 0]
  let fillW : K := batteryFillW w percent
  let fill : List K :=
    if fillW > 1 / 1000 then
      [x + 4 / 1000, y - 4 / 1000, 0, x + 4 / 1000 + fillW, y - 4 / 1000, 0,
       x + 4 / 1000 + fillW, y - 4 / 1000, 0, x + 4 / 1000 + fillW, y - h + 4 / 1000, 0,
       x + 4 / 1000 + fillW, y - h + 4 / 1000, 0, x + 4 / 1000, y - h + 4 / 1000, 0,
       x + 4 / 1000, y - h + 4 / 1000, 0, x + 4 / 1000, y - 4 / 1000, 0]
    else []
  outline ++ tip ++ fill

end Hud

/-! ## The main loop (lines 469-531) -/

section MainLoop

variable {K : Type} [LinearOrderedField K]

/-- The function `std::max(a, b) = (a < b) ? b : a`. -/
def stdMax (a b : K) : K := if a < b then b else a

/-- The conversion `(int)x` of a scalar: truncation toward zero. -/
def truncToInt [FloorRing K] (x : K) : Int := if 0 ≤ x then ⌊x⌋ else ⌈x⌉

/-- The state of the main loop: the globals, the loop's local variables, the
count of vertex-array names handed out so far, the contents of the two HUD
buffers, and the record of the calls of `createTimerVAO` (the value of
`elapsedTime` at each call) and of `createBatteryVAO` (the percentage passed),
oldest first. -/
structure Loop (K : Type) where
  world : World K
  deltaTime : K
  lastFrame : K
  timerVAO : Nat
  batteryVAO : Nat
  lastSecond : Int
  lastBatteryUpdate : K
  lastBatteryPercent : K
  glNames : Nat
  timerData : List K
  batteryData : List K
  timerCalls : List Int
  batteryCalls : List K

/-- The initial values of `drone` (lines 28-38) and `camera` (line 40);
the camera basis is whatever the view collaborator starts with. -/
def initWorld (front right : Vec3 K) : World K :=
  { drone :=
      { thermalVision := false, vKeyPressed := false, lightsOn := true, lKeyPressed := false,
        signalLost := false, signalLostTimer := 0, velocity := Vec3.splat 0, startTime := 0,
        batteryPercent := 100 },
    camera := { Position := ⟨0, 2, 15⟩, Front := front, Right := right } }

/-- The state on entry to the loop (lines 44, 469-472, 504). -/
def initLoop (front right : Vec3 K) : Loop K :=
  { world := initWorld front right, deltaTime := 0, lastFrame := 0,
    timerVAO := 0, batteryVAO := 0, lastSecond := -1, lastBatteryUpdate := 0,
    lastBatteryPercent := 100, glNames := 0, timerData := [], batteryData := [],
    timerCalls := [], batteryCalls := [] }

/-- Replace `drone.batteryPercent`. -/
def World.setBattery (w : World K) (b : K) : World K :=
  { w with drone := { w.drone with batteryPercent := b } }

/-- Replace `drone.startTime`. -/
def World.setStartTime (w : World K) (t : K) : World K :=
  { w with drone := { w.drone with startTime := t } }

/-- Lines 475-477: `deltaTime` and `lastFrame`. -/
def frameTiming (currentFrame : K) (s : Loop K) : Loop K :=
  { s with deltaTime := currentFrame - s.lastFrame, lastFrame := currentFrame }

/-- Lines 480-482: the start time is taken from the first frame. -/
def initStartTime (currentFrame : K) (s : Loop K) : Loop K :=
  if s.world.drone.startTime = 0 then { s with world := s.world.setStartTime currentFrame }
  else s

/-- Lines 485-488: the battery update. -/
def batteryUpdate (currentFrame : K) (s : Loop K) : Loop K :=
  if currentFrame - s.lastBatteryUpdate > 6 then
    { s with world := s.world.setBattery (stdMax 0 (s.world.drone.batteryPercent - 1)),
             lastBatteryUpdate := currentFrame }
  else s

/-- Line 491: `elapsedTime`. -/
def elapsedTime [FloorRing K] (currentFrame : K) (s : Loop K) : Int :=
  truncToInt (currentFrame - s.world.drone.startTime)

/-- Lines 496-498: the three arguments passed to `createTimerVAO`. -/
def timerArgs (elapsed : Int) : Int × Int × Int :=
  (Int.tdiv elapsed 3600, Int.tdiv (Int.tmod elapsed 3600) 60, Int.tmod elapsed 60)

/-- Lines 491-501: the timer buffer is rebuilt when `currentSecond` differs
from `lastSecond`. The name returned by `glGenVertexArrays` is the next unused
non-zero name. -/
def timerHud [FloorRing K] (currentFrame : K) (s : Loop K) : Loop K :=
  let elapsed := elapsedTime currentFrame s
  let currentSecond := Int.tmod elapsed 60
  if currentSecond ≠ s.lastSecond then
    let args := timerArgs elapsed
    { s with timerVAO := s.glNames + 1, glNames := s.glNames + 1,
             timerData := createTimerVAO args.1 args.2.1 args.2.2,
             timerCalls := s.timerCalls ++ [elapsed],
             lastSecond := currentSecond }
  else s

/-- One call `batteryVAO = createBatteryVAO(drone.batteryPercent)`. -/
def callCreateBatteryVAO (s : Loop K) : Loop K :=
  { s with batteryVAO := s.glNames + 1, glNames := s.glNames + 1,
           batteryData := createBatteryVAO s.world.drone.batteryPercent,
           batteryCalls := s.batteryCalls ++ [s.world.drone.batteryPercent] }

/-- Lines 504-512: the battery buffer is rebuilt when the percentage differs
from `lastBatteryPercent`, and built when there is none yet. -/
def batteryHud (s : Loop K) : Loop K :=
  let s1 :=
    if s.world.drone.batteryPercent ≠ s.lastBatteryPercent then
      { callCreateBatteryVAO s with lastBatteryPercent := s.world.drone.batteryPercent }
    else s
  if s1.batteryVAO = 0 then callCreateBatteryVAO s1 else s1

/-- Lines 517-531: the distance check against `SPAWN_POINT`. -/
def distanceCheck [GlmSqrt K] (currentFrame : K) (w : World K) : World K :=
  let dist := Vec3.length (Vec3.sub w.camera.Position SPAWN_POINT)
  if dist > MAX_DISTANCE then
    let dr : DroneState K :=
      if !w.drone.signalLost then
        { w.drone with signalLost := true, signalLostTimer := currentFrame }
      else w.drone
    if currentFrame - dr.signalLostTimer > RESPAWN_DELAY then
      { drone := { dr with velocity := Vec3.splat 0, signalLost := false },
        camera := { w.camera with Position := SPAWN_POINT } }
    else { drone := dr, camera := w.camera }
  else { w with drone := { w.drone with signalLost := false } }

/-- One iteration of the main loop up to the distance check (lines 475-531),
at clock value `currentFrame` with the key states `k`. -/
def mainLoopTick [FloorRing K] [GlmSqrt K] (collisionBoxes : List (BoundingBox K))
    (s : Loop K) (tick : K × Keys) : Loop K :=
  let currentFrame := tick.1
  let s1 := frameTiming currentFrame s
  let s2 := initStartTime currentFrame s1
  let s3 := batteryUpdate currentFrame s2
  let s4 := timerHud currentFrame s3
  let s5 := batteryHud s4
  let s6 := { s5 with world := processInput s5.world tick.2 s5.deltaTime collisionBoxes }
  { s6 with world := distanceCheck currentFrame s6.world }

/-- The main loop run over a sequence of ticks. -/
def runLoop [FloorRing K] [GlmSqrt K] (collisionBoxes : List (BoundingBox K))
    (s : Loop K) (ticks : List (K × Keys)) : Loop K :=
  ticks.foldl (mainLoopTick collisionBoxes) s

end MainLoop

/-! ## Sample inputs -/

section Samples

variable {K : Type} [LinearOrderedField K]

/-- No key and no button pressed. -/
def noKeys : Keys :=
  { w := false, s := false, a := false, d := false, e := false, q := false,
    v := false, l := false, mouseMiddle := false }

/-- Only the forward key `W` pressed. -/
def keyW : Keys := { noKeys with w := true }

/-- The initial world with the camera looking down the negative z axis. -/
def sampleWorld : World K := initWorld ⟨0, 0, -1⟩ ⟨1, 0, 0⟩

/-- A box of side 2 centred on the spawn point. -/
def spawnBox : BoundingBox K := { min := ⟨-1, 1, 14⟩, max := ⟨1, 3, 16⟩ }

/-- A world whose camera is 200 units from the spawn point, moving, with the
signal recorded as lost at time 0. -/
def farWorld : World K :=
  { drone := { (sampleWorld : World K).drone with
      signalLost := true, signalLostTimer := 0, velocity := ⟨1, 0, 0⟩ },
    camera := { (sampleWorld : World K).camera with Position := ⟨200, 2, 15⟩ } }

/-- A vertex whose x coordinate is `2e10`, beyond the seed `1e10`. -/
def hugeVertex : Vec3 K := ⟨20000000000, 0, 0⟩

/-- Two vertices of a small mesh. -/
def smallMesh : List (Vec3 K) := [⟨1, 5, -2⟩, ⟨3, 4, 0⟩]

/-- The initial world with the drone coasting at velocity `(3, 0, 4)`. -/
def coastingWorld : World K :=
  { drone := { (sampleWorld : World K).drone with velocity := ⟨3, 0, 4⟩ },
    camera := (sampleWorld : World K).camera }

/-- A box far from the spawn point. -/
def sideBox : BoundingBox K := { min := ⟨50, 0, 0⟩, max := ⟨60, 5, 5⟩ }

/-- A loop state just before the hundredth hour: the run started at time 1
and the last rendered second is 59. -/
def hundredHourLoop : Loop K :=
  { (initLoop ⟨0, 0, -1⟩ ⟨1, 0, 0⟩ : Loop K) with
    world := (sampleWorld : World K).setStartTime 1, lastSecond := 59 }

end Samples

/-! ## Invariants of the main loop -/

section Invariants

variable {K : Type} [LinearOrderedField K]

/-- Battery invariant relative to the timestamps `times` seen so far: the
percentage is `100 - j` for a whole number `j <= 100` of points lost, and
either nothing was lost and `lastBatteryUpdate` is still `0`, or
`lastBatteryUpdate` is one of the timestamps and lies beyond `6 * j`. -/
def BatteryInv (s : Loop K) (times : List K) : Prop :=
  ∃ j : ℕ, j ≤ 100 ∧ s.world.drone.batteryPercent = 100 - (j : K) ∧
    ((j = 0 ∧ s.lastBatteryUpdate = 0) ∨
     (6 * (j : K) < s.lastBatteryUpdate ∧ s.lastBatteryUpdate ∈ times))

/-- Battery invariant relative to the latest timestamp `t`: no more than 6
seconds separate `t` from `lastBatteryUpdate`, the percentage is `100 - j` for
a whole number `j <= 100`, and while nothing was lost `lastBatteryUpdate` is
still `0`. -/
def BatteryFiredInv (s : Loop K) (t : K) : Prop :=
  t - s.lastBatteryUpdate ≤ 6 ∧
  ∃ j : ℕ, j ≤ 100 ∧ s.world.drone.batteryPercent = 100 - (j : K) ∧
    (j = 0 → s.lastBatteryUpdate = 0)

/-- Battery pace invariant for ticks at most `g` apart: the percentage is
`100 - j` for a whole number `j <= 100`, and unless the floor is reached the
`j` decrements took no longer than `j * (6 + g)` seconds. -/
def BatteryPaceInv (g : K) (s : Loop K) : Prop :=
  ∃ j : ℕ, j ≤ 100 ∧ s.world.drone.batteryPercent = 100 - (j : K) ∧
    (s.lastBatteryUpdate ≤ (j : K) * (6 + g) ∨ j = 100)

/-- Timer invariant relative to the latest timestamp `t`: the record of
`createTimerVAO` calls is strictly increasing, and either nothing has been
rendered yet, or the start time is fixed at or before `t`, `lastSecond` is the
last rendered value modulo 60, and that value is non-negative, bounds the
record and does not exceed the elapsed time at `t`. -/
def TimerInv [FloorRing K] (s : Loop K) (t : K) : Prop :=
  List.Sorted (· < ·) s.timerCalls ∧
  ((s.timerCalls = [] ∧ s.world.drone.startTime = 0 ∧ s.lastSecond = -1) ∨
   (s.world.drone.startTime ≤ t ∧ (s.world.drone.startTime = 0 → t = 0) ∧
    ∃ e : Int, s.timerCalls.getLast? = some e ∧ 0 ≤ e ∧
      e ≤ truncToInt (t - s.world.drone.startTime) ∧
      s.lastSecond = Int.tmod e 60 ∧ ∀ x ∈ s.timerCalls, x ≤ e))

/-- Battery-gauge invariant: the percentage is non-negative and equals
`lastBatteryPercent`, the record of `createBatteryVAO` calls is strictly
decreasing and bounded below by the percentage, and either no buffer exists
and nothing was rendered, or a buffer exists and the last rendered value is
the percentage. -/
def BatteryHudInv (s : Loop K) : Prop :=
  0 ≤ s.world.drone.batteryPercent ∧
  s.lastBatteryPercent = s.world.drone.batteryPercent ∧
  List.Sorted (· > ·) s.batteryCalls ∧
  (∀ x ∈ s.batteryCalls, s.world.drone.batteryPercent ≤ x) ∧
  ((s.batteryVAO = 0 ∧ s.batteryCalls = []) ∨
   (s.batteryVAO ≠ 0 ∧ s.batteryCalls.getLast? = some s.world.drone.batteryPercent))

end Invariants

/-! ## Theorems -/

section MotionLemmas

/-- The squared length after the speed clamp is at most `MAX_SPEED ^ 2`. -/
theorem dot_clampSpeed_le (v : Vec3 ℝ) :
    Vec3.dot (clampSpeed v) (clampSpeed v) ≤ 144 := by
  unfold clampSpeed
  split_ifs with h
  · have h12 : (12 : ℝ) < Real.sqrt (Vec3.dot v v) := h
    have hpos : 0 < Real.sqrt (Vec3.dot v v) := by linarith
    have hd : 0 < Vec3.dot v v := Real.sqrt_pos.mp hpos
    have hsq : Real.sqrt (Vec3.dot v v) * Real.sqrt (Vec3.dot v v) = Vec3.dot v v :=
      Real.mul_self_sqrt hd.le
    have hinv : (1 / Real.sqrt (Vec3.dot v v)) * (1 / Real.sqrt (Vec3.dot v v)) * Vec3.dot v v = 1 := by
      field_simp
    have key : Vec3.dot (Vec3.scale (Vec3.normalize v) MAX_SPEED)
        (Vec3.scale (Vec3.normalize v) MAX_SPEED)
        = 144 * ((1 / Real.sqrt (Vec3.dot v v)) * (1 / Real.sqrt (Vec3.dot v v)) * Vec3.dot v v) := by
      simp only [Vec3.dot, Vec3.scale, Vec3.normalize, inversesqrt, MAX_SPEED, GlmSqrt.sqrt]
      ring
    rw [key, hinv]; norm_num
  · have h12 : Real.sqrt (Vec3.dot v v) ≤ 12 := not_lt.mp h
    have := (Real.sqrt_le_left (by norm_num : (0 : ℝ) ≤ 12)).mp h12
    linarith

/-- Friction does not increase the squared length. -/
theorem dot_applyFriction_le (v : Vec3 ℝ) :
    Vec3.dot (applyFriction v) (applyFriction v) ≤ Vec3.dot v v := by
  have hx := mul_self_nonneg v.x
  have hy := mul_self_nonneg v.y
  have hz := mul_self_nonneg v.z
  simp only [Vec3.dot, applyFriction, Vec3.scale, FRICTION]
  nlinarith

end MotionLemmas

/-- C1: for every pre-tick state, every time step `dt > 0`, every key
combination, camera basis, ghost-mode value and list of collision boxes, the
velocity left by one call of `processInput` has Euclidean length at most
`MAX_SPEED = 12`, over the reals. -/
theorem processInput_speed_le_max (w : World ℝ) (k : Keys) (dt : ℝ) (hdt : 0 < dt)
    (boxes : List (BoundingBox ℝ)) :
    Vec3.length (processInput w k dt boxes).drone.velocity ≤ MAX_SPEED := by
  have hv : Vec3.dot (integratedVelocity w k dt) (integratedVelocity w k dt) ≤ 144 :=
    le_trans (dot_applyFriction_le _) (dot_clampSpeed_le _)
  unfold processInput
  simp only []
  split_ifs with h
  · simp [Vec3.length, Vec3.dot, Vec3.splat, GlmSqrt.sqrt, MAX_SPEED]
  · show Real.sqrt _ ≤ (12 : ℝ)
    rw [Real.sqrt_le_left (by norm_num)]
    norm_num
    exact hv

/-- Witness of C1: the forward key held for one second from rest. -/
theorem processInput_speed_le_max_witness :
    (0 : ℝ) < 1 ∧
      Vec3.length (processInput (sampleWorld : World ℝ) keyW 1 []).drone.velocity ≤ MAX_SPEED :=
  ⟨by norm_num, processInput_speed_le_max sampleWorld keyW 1 (by norm_num) []⟩

section CollisionLemmas

variable {K : Type} [LinearOrderedField K]

/-- The overlap test is the conjunction of the six strict inequalities. -/
theorem overlaps_iff (p : Vec3 K) (box : BoundingBox K) :
    overlaps p box = true ↔
      (p.x + DRONE_RADIUS > box.min.x ∧ p.x - DRONE_RADIUS < box.max.x ∧
       p.y + DRONE_RADIUS > box.min.y ∧ p.y - DRONE_RADIUS < box.max.y ∧
       p.z + DRONE_RADIUS > box.min.z ∧ p.z - DRONE_RADIUS < box.max.z) := by
  simp [overlaps, and_assoc]

/-- The scan reports a hit exactly when some box of the list overlaps. -/
theorem hitsAny_iff (p : Vec3 K) (boxes : List (BoundingBox K)) :
    hitsAny p boxes = true ↔ ∃ box ∈ boxes, overlaps p box = true := by
  induction boxes with
  | nil => simp [hitsAny]
  | cons b rest ih =>
    by_cases hb : overlaps p b = true
    · simp [hitsAny, hb]
    · simp [hitsAny, hb, ih]

end CollisionLemmas

/-- C2: with `cand` the candidate `position + velocity * dt` computed after
acceleration, clamp and friction: if ghost mode is off and the candidate
inflated by `DRONE_RADIUS` overlaps some box of `collisionBoxes` on all three
axes, the camera position is unchanged and the velocity is the zero vector; if
ghost mode is on or the inflated candidate overlaps no box, the camera position
becomes the candidate. -/
theorem processInput_collision_response (w : World ℝ) (k : Keys) (dt : ℝ)
    (boxes : List (BoundingBox ℝ)) :
    let cand := candidate w k dt
    ((k.mouseMiddle = false ∧
        ∃ box ∈ boxes,
          cand.x + DRONE_RADIUS > box.min.x ∧ cand.x - DRONE_RADIUS < box.max.x ∧
          cand.y + DRONE_RADIUS > box.min.y ∧ cand.y - DRONE_RADIUS < box.max.y ∧
          cand.z + DRONE_RADIUS > box.min.z ∧ cand.z - DRONE_RADIUS < box.max.z) →
      (processInput w k dt boxes).camera.Position = w.camera.Position ∧
      (processInput w k dt boxes).drone.velocity = Vec3.splat 0) ∧
    ((k.mouseMiddle = true ∨
        ∀ box ∈ boxes,
          ¬ (cand.x + DRONE_RADIUS > box.min.x ∧ cand.x - DRONE_RADIUS < box.max.x ∧
             cand.y + DRONE_RADIUS > box.min.y ∧ cand.y - DRONE_RADIUS < box.max.y ∧
             cand.z + DRONE_RADIUS > box.min.z ∧ cand.z - DRONE_RADIUS < box.max.z)) →
      (processInput w k dt boxes).camera.Position = cand) := by
  intro cand
  constructor
  · rintro ⟨hg, box, hmem, hbox⟩
    have hhit : hitsAny cand boxes = true :=
      (hitsAny_iff cand boxes).mpr ⟨box, hmem, (overlaps_iff cand box).mpr hbox⟩
    have hc : hitsAny (Vec3.add w.camera.Position
        (Vec3.scale (integratedVelocity w k dt) dt)) boxes = true := hhit
    simp [processInput, hg, hc]
  · intro h
    have hc : (!k.mouseMiddle && hitsAny (Vec3.add w.camera.Position
        (Vec3.scale (integratedVelocity w k dt) dt)) boxes) = false := by
      rcases h with hg | hno
      · simp [hg]
      · have hmiss : hitsAny cand boxes = false := by
          rw [Bool.eq_false_iff]
          intro hhit
          obtain ⟨box, hmem, hov⟩ := (hitsAny_iff cand boxes).mp hhit
          exact hno box hmem ((overlaps_iff cand box).mp hov)
        have hmiss2 : hitsAny (Vec3.add w.camera.Position
            (Vec3.scale (integratedVelocity w k dt) dt)) boxes = false := hmiss
        simp [hmiss2]
    simp only [processInput, hc]
    rfl

/-- At rest with no key pressed the candidate is the current position. -/
theorem candidate_sampleWorld_rest :
    candidate (sampleWorld : World ℝ) noKeys 1 = ⟨0, 2, 15⟩ := by
  norm_num [candidate, integratedVelocity, applyFriction, clampSpeed, accelerate, inputDir,
    sampleWorld, initWorld, noKeys, Vec3.length, Vec3.dot, Vec3.splat, Vec3.scale, Vec3.add,
    GlmSqrt.sqrt, MAX_SPEED]

/-- Witness of C2: at rest inside `spawnBox` the move is rejected, and with no
box the candidate is committed. -/
theorem processInput_collision_response_witness :
    ((processInput (sampleWorld : World ℝ) noKeys 1 [spawnBox]).camera.Position
        = (sampleWorld : World ℝ).camera.Position ∧
      (processInput (sampleWorld : World ℝ) noKeys 1 [spawnBox]).drone.velocity
        = Vec3.splat 0) ∧
    (processInput (sampleWorld : World ℝ) noKeys 1 []).camera.Position
        = candidate sampleWorld noKeys 1 :=
  ⟨(processInput_collision_response sampleWorld noKeys 1 [spawnBox]).1
      ⟨rfl, spawnBox, List.mem_singleton.mpr rfl, by
        rw [candidate_sampleWorld_rest]
        simp only [spawnBox, DRONE_RADIUS]
        norm_num⟩,
    (processInput_collision_response sampleWorld noKeys 1 []).2
      (Or.inr (fun _ hb => absurd hb (List.not_mem_nil _)))⟩

/-- The sample far world is farther than `MAX_DISTANCE` from the spawn point. -/
theorem farWorld_is_far :
    Vec3.length (Vec3.sub (farWorld : World ℝ).camera.Position SPAWN_POINT) > MAX_DISTANCE := by
  show (100 : ℝ) < Real.sqrt _
  rw [Real.lt_sqrt (by norm_num)]
  norm_num [farWorld, sampleWorld, initWorld, SPAWN_POINT, Vec3.sub, Vec3.dot]

/-- C3 as stated fails at the boundary: with the signal lost at `t0 = 0` and
the drone still out of range at `t = 2`, so that `t - t0 >= RESPAWN_DELAY`,
the tick does not move the camera to `SPAWN_POINT` and leaves `signalLost` set. -/
theorem distanceCheck_no_respawn_at_exact_delay :
    (farWorld : World ℝ).drone.signalLost = true ∧
    (farWorld : World ℝ).drone.signalLostTimer = 0 ∧
    Vec3.length (Vec3.sub (farWorld : World ℝ).camera.Position SPAWN_POINT) > MAX_DISTANCE ∧
    (2 : ℝ) - 0 ≥ RESPAWN_DELAY ∧
    (distanceCheck 2 (farWorld : World ℝ)).camera.Position = ⟨200, 2, 15⟩ ∧
    (distanceCheck 2 (farWorld : World ℝ)).camera.Position ≠ SPAWN_POINT ∧
    (distanceCheck 2 (farWorld : World ℝ)).drone.velocity ≠ Vec3.splat 0 ∧
    (distanceCheck 2 (farWorld : World ℝ)).drone.signalLost = true := by
  have hfar := farWorld_is_far
  have hstep : distanceCheck 2 (farWorld : World ℝ) = farWorld := by
    unfold distanceCheck
    simp only [hfar, if_true]
    norm_num [farWorld, RESPAWN_DELAY]
  refine ⟨rfl, rfl, hfar, by norm_num [RESPAWN_DELAY], ?_, ?_, ?_, ?_⟩
  · rw [hstep]; rfl
  · rw [hstep]
    intro h
    have hx := congrArg Vec3.x h
    norm_num [farWorld, SPAWN_POINT] at hx
  · rw [hstep]
    intro h
    have hx := congrArg Vec3.x h
    norm_num [farWorld, Vec3.splat] at hx
  · rw [hstep]; rfl

/-- C3, amended: let `t0` be the time stored in `signalLostTimer` while
`signalLost` is set, and let the drone be farther than `MAX_DISTANCE` from
`SPAWN_POINT` at a tick with timestamp `t`. If `t - t0 <= RESPAWN_DELAY` the
distance check leaves position and velocity untouched; if
`t - t0 > RESPAWN_DELAY` it sets the position to `SPAWN_POINT`, the velocity
to zero and clears `signalLost`. -/
theorem distanceCheck_respawn (w : World ℝ) (t0 t : ℝ)
    (hfar : Vec3.length (Vec3.sub w.camera.Position SPAWN_POINT) > MAX_DISTANCE)
    (hlost : w.drone.signalLost = true) (ht0 : w.drone.signalLostTimer = t0) :
    (t - t0 ≤ RESPAWN_DELAY →
      (distanceCheck t w).camera.Position = w.camera.Position ∧
      (distanceCheck t w).drone.velocity = w.drone.velocity) ∧
    (t - t0 > RESPAWN_DELAY →
      (distanceCheck t w).camera.Position = SPAWN_POINT ∧
      (distanceCheck t w).drone.velocity = Vec3.splat 0 ∧
      (distanceCheck t w).drone.signalLost = false) := by
  subst ht0
  constructor
  · intro hle
    have hn : ¬ (t - w.drone.signalLostTimer > RESPAWN_DELAY) := not_lt.mpr hle
    unfold distanceCheck
    simp [hfar, hlost, hn]
  · intro hgt
    unfold distanceCheck
    simp [hfar, hlost, hgt]

/-- Witness of C3 (amended): the sample far world at `t = 1` and at `t = 3`. -/
theorem distanceCheck_respawn_witness :
    ((distanceCheck 1 (farWorld : World ℝ)).camera.Position = (farWorld : World ℝ).camera.Position ∧
      (distanceCheck 1 (farWorld : World ℝ)).drone.velocity = (farWorld : World ℝ).drone.velocity) ∧
    ((distanceCheck 3 (farWorld : World ℝ)).camera.Position = SPAWN_POINT ∧
      (distanceCheck 3 (farWorld : World ℝ)).drone.velocity = Vec3.splat 0 ∧
      (distanceCheck 3 (farWorld : World ℝ)).drone.signalLost = false) :=
  ⟨(distanceCheck_respawn farWorld 0 1 farWorld_is_far rfl rfl).1 (by norm_num [RESPAWN_DELAY]),
   (distanceCheck_respawn farWorld 0 3 farWorld_is_far rfl rfl).2 (by norm_num [RESPAWN_DELAY])⟩

section LoopProjections

variable {K : Type} [LinearOrderedField K]

/-- The motion integrator does not touch the battery. -/
theorem processInput_batteryPercent [GlmSqrt K] (w : World K) (k : Keys) (dt : K)
    (boxes : List (BoundingBox K)) :
    (processInput w k dt boxes).drone.batteryPercent = w.drone.batteryPercent := by
  unfold processInput
  dsimp only
  split_ifs <;> rfl

/-- The motion integrator does not touch the start time. -/
theorem processInput_startTime [GlmSqrt K] (w : World K) (k : Keys) (dt : K)
    (boxes : List (BoundingBox K)) :
    (processInput w k dt boxes).drone.startTime = w.drone.startTime := by
  unfold processInput
  dsimp only
  split_ifs <;> rfl

/-- The distance check does not touch the battery. -/
theorem distanceCheck_batteryPercent [GlmSqrt K] (t : K) (w : World K) :
    (distanceCheck t w).drone.batteryPercent = w.drone.batteryPercent := by
  unfold distanceCheck
  dsimp only
  split_ifs <;> rfl

/-- The distance check does not touch the start time. -/
theorem distanceCheck_startTime [GlmSqrt K] (t : K) (w : World K) :
    (distanceCheck t w).drone.startTime = w.drone.startTime := by
  unfold distanceCheck
  dsimp only
  split_ifs <;> rfl

/-- The start-time step keeps the battery percentage. -/
theorem initStartTime_batteryPercent (t : K) (s : Loop K) :
    (initStartTime t s).world.drone.batteryPercent = s.world.drone.batteryPercent := by
  unfold initStartTime
  split_ifs <;> rfl

/-- The start-time step keeps every field other than `world`. -/
theorem initStartTime_rest (t : K) (s : Loop K) :
    (initStartTime t s).lastBatteryUpdate = s.lastBatteryUpdate ∧
    (initStartTime t s).lastSecond = s.lastSecond ∧
    (initStartTime t s).lastBatteryPercent = s.lastBatteryPercent ∧
    (initStartTime t s).batteryVAO = s.batteryVAO ∧
    (initStartTime t s).timerCalls = s.timerCalls ∧
    (initStartTime t s).batteryCalls = s.batteryCalls := by
  unfold initStartTime
  split_ifs <;> exact ⟨rfl, rfl, rfl, rfl, rfl, rfl⟩

/-- The start time after the start-time step. -/
theorem initStartTime_startTime (t : K) (s : Loop K) :
    (initStartTime t s).world.drone.startTime =
      if s.world.drone.startTime = 0 then t else s.world.drone.startTime := by
  unfold initStartTime
  split_ifs <;> rfl

/-- The battery percentage after the battery update. -/
theorem batteryUpdate_batteryPercent (t : K) (s : Loop K) :
    (batteryUpdate t s).world.drone.batteryPercent =
      if t - s.lastBatteryUpdate > 6 then stdMax 0 (s.world.drone.batteryPercent - 1)
      else s.world.drone.batteryPercent := by
  unfold batteryUpdate
  split_ifs <;> rfl

/-- The value of `lastBatteryUpdate` after the battery update. -/
theorem batteryUpdate_lastBatteryUpdate (t : K) (s : Loop K) :
    (batteryUpdate t s).lastBatteryUpdate =
      if t - s.lastBatteryUpdate > 6 then t else s.lastBatteryUpdate := by
  unfold batteryUpdate
  split_ifs <;> rfl

/-- The battery update keeps the start time and the HUD bookkeeping. -/
theorem batteryUpdate_rest (t : K) (s : Loop K) :
    (batteryUpdate t s).world.drone.startTime = s.world.drone.startTime ∧
    (batteryUpdate t s).lastSecond = s.lastSecond ∧
    (batteryUpdate t s).lastBatteryPercent = s.lastBatteryPercent ∧
    (batteryUpdate t s).batteryVAO = s.batteryVAO ∧
    (batteryUpdate t s).timerCalls = s.timerCalls ∧
    (batteryUpdate t s).batteryCalls = s.batteryCalls := by
  unfold batteryUpdate
  split_ifs <;> exact ⟨rfl, rfl, rfl, rfl, rfl, rfl⟩

/-- The timer step keeps the world, the battery bookkeeping and the battery buffer. -/
theorem timerHud_rest [FloorRing K] (t : K) (s : Loop K) :
    (timerHud t s).world = s.world ∧
    (timerHud t s).lastBatteryUpdate = s.lastBatteryUpdate ∧
    (timerHud t s).lastBatteryPercent = s.lastBatteryPercent ∧
    (timerHud t s).batteryVAO = s.batteryVAO ∧
    (timerHud t s).batteryCalls = s.batteryCalls := by
  unfold timerHud
  dsimp only
  split_ifs <;> exact ⟨rfl, rfl, rfl, rfl, rfl⟩

/-- The battery HUD step keeps the world, the battery timer and the timer bookkeeping. -/
theorem batteryHud_rest (s : Loop K) :
    (batteryHud s).world = s.world ∧
    (batteryHud s).lastBatteryUpdate = s.lastBatteryUpdate ∧
    (batteryHud s).lastSecond = s.lastSecond ∧
    (batteryHud s).timerCalls = s.timerCalls := by
  unfold batteryHud callCreateBatteryVAO
  dsimp only
  split_ifs <;> exact ⟨rfl, rfl, rfl, rfl⟩

/-- The battery percentage after one tick. -/
theorem mainLoopTick_batteryPercent [FloorRing K] [GlmSqrt K]
    (boxes : List (BoundingBox K)) (s : Loop K) (tick : K × Keys) :
    (mainLoopTick boxes s tick).world.drone.batteryPercent =
      if tick.1 - s.lastBatteryUpdate > 6 then stdMax 0 (s.world.drone.batteryPercent - 1)
      else s.world.drone.batteryPercent := by
  unfold mainLoopTick
  dsimp only
  rw [distanceCheck_batteryPercent, processInput_batteryPercent, (batteryHud_rest _).1,
    (timerHud_rest _ _).1, batteryUpdate_batteryPercent, initStartTime_batteryPercent,
    (initStartTime_rest _ _).1]
  rfl

/-- The value of `lastBatteryUpdate` after one tick. -/
theorem mainLoopTick_lastBatteryUpdate [FloorRing K] [GlmSqrt K]
    (boxes : List (BoundingBox K)) (s : Loop K) (tick : K × Keys) :
    (mainLoopTick boxes s tick).lastBatteryUpdate =
      if tick.1 - s.lastBatteryUpdate > 6 then tick.1 else s.lastBatteryUpdate := by
  unfold mainLoopTick
  dsimp only
  rw [(batteryHud_rest _).2.1, (timerHud_rest _ _).2.1, batteryUpdate_lastBatteryUpdate,
    (initStartTime_rest _ _).1]
  rfl

end LoopProjections

/-- The state on entry to the loop satisfies the battery invariant. -/
theorem batteryInv_initLoop {K : Type} [LinearOrderedField K] (front right : Vec3 K)
    (times : List K) : BatteryInv (initLoop front right) times :=
  ⟨0, by norm_num, by simp [initLoop, initWorld], Or.inl ⟨rfl, rfl⟩⟩

section BatteryLemmas

variable {K : Type} [LinearOrderedField K] [FloorRing K] [GlmSqrt K]

/-- One tick preserves the battery invariant, its timestamp joining the list. -/
theorem batteryInv_mainLoopTick (boxes : List (BoundingBox K)) (s : Loop K)
    (tick : K × Keys) (times : List K) (h : BatteryInv s times) :
    BatteryInv (mainLoopTick boxes s tick) (times ++ [tick.1]) := by
  obtain ⟨j, hj, hb, hcase⟩ := h
  unfold BatteryInv
  rw [mainLoopTick_batteryPercent, mainLoopTick_lastBatteryUpdate]
  by_cases hfire : tick.1 - s.lastBatteryUpdate > 6
  · simp only [hfire, if_true]
    have hjK : (j : K) ≤ 100 := by exact_mod_cast hj
    have h6j : 6 * (j : K) ≤ s.lastBatteryUpdate := by
      rcases hcase with ⟨hj0, hl⟩ | ⟨hlt, _⟩
      · rw [hl, hj0]; simp
      · exact hlt.le
    by_cases hlt : j < 100
    · refine ⟨j + 1, by omega, ?_, Or.inr ⟨?_, by simp⟩⟩
      · have hj99 : (j : K) ≤ 99 := by
          have : j ≤ 99 := by omega
          exact_mod_cast this
        unfold stdMax
        split_ifs with hpos
        · rw [hb]; push_cast; ring
        · rw [hb] at hpos
          push_cast
          linarith
      · push_cast
        linarith
    · have hj100 : j = 100 := by omega
      subst hj100
      refine ⟨100, le_refl _, ?_, Or.inr ⟨?_, by simp⟩⟩
      · unfold stdMax
        rw [hb]
        norm_num
      · push_cast at h6j ⊢
        linarith
  · simp only [hfire, if_false]
    refine ⟨j, hj, hb, ?_⟩
    rcases hcase with h0 | ⟨hlt, hmem⟩
    · exact Or.inl h0
    · exact Or.inr ⟨hlt, List.mem_append_left _ hmem⟩

/-- A run preserves the battery invariant, its timestamps joining the list. -/
theorem batteryInv_runLoop (boxes : List (BoundingBox K)) (ticks : List (K × Keys)) :
    ∀ (s : Loop K) (times : List K), BatteryInv s times →
      BatteryInv (runLoop boxes s ticks) (times ++ ticks.map Prod.fst) := by
  induction ticks with
  | nil => intro s times h; simpa [runLoop] using h
  | cons tick rest ih =>
    intro s times h
    have h1 := batteryInv_mainLoopTick boxes s tick times h
    have h2 := ih (mainLoopTick boxes s tick) (times ++ [tick.1]) h1
    simpa [runLoop, List.append_assoc] using h2

/-- The decrement `std::max(0, b - 1)` at `b = 100 - j` gives
`100 - min (j + 1) 100`. -/
theorem stdMax_decrement {K : Type} [LinearOrderedField K] (j : ℕ) (hj : j ≤ 100) :
    stdMax (0 : K) (100 - (j : K) - 1) = 100 - ((min (j + 1) 100 : ℕ) : K) := by
  unfold stdMax
  by_cases hlt : j < 100
  · have hmin : min (j + 1) 100 = j + 1 := min_eq_left (by omega)
    have hj99 : (j : K) ≤ 99 := by
      have : j ≤ 99 := by omega
      exact_mod_cast this
    rw [hmin]
    split_ifs with hpos
    · push_cast; ring
    · push_cast
      linarith
  · have hj100 : j = 100 := by omega
    subst hj100
    norm_num

/-- One tick, at any timestamp, establishes the battery invariant at that timestamp. -/
theorem batteryFiredInv_mainLoopTick (boxes : List (BoundingBox K)) (s : Loop K)
    (tick : K × Keys) (t : K) (h : BatteryFiredInv s t) :
    BatteryFiredInv (mainLoopTick boxes s tick) tick.1 := by
  obtain ⟨_, j, hj, hb, hzero⟩ := h
  unfold BatteryFiredInv
  rw [mainLoopTick_batteryPercent, mainLoopTick_lastBatteryUpdate]
  by_cases hfire : tick.1 - s.lastBatteryUpdate > 6
  · simp only [if_pos hfire]
    refine ⟨by simp, min (j + 1) 100, min_le_right _ _, ?_, ?_⟩
    · rw [hb, stdMax_decrement j hj]
    · intro h0
      have : 1 ≤ min (j + 1) 100 := le_min (by omega) (by omega)
      omega
  · simp only [if_neg hfire]
    exact ⟨not_lt.mp hfire, j, hj, hb, hzero⟩

/-- One tick no later than `g` after the latest timestamp preserves the pace invariant. -/
theorem batteryPaceInv_mainLoopTick (g : K) (boxes : List (BoundingBox K)) (s : Loop K)
    (tick : K × Keys) (t : K) (hA : BatteryFiredInv s t) (hP : BatteryPaceInv g s)
    (hgap : tick.1 - t ≤ g) : BatteryPaceInv g (mainLoopTick boxes s tick) := by
  obtain ⟨hclose, _⟩ := hA
  obtain ⟨j, hj, hb, hpace⟩ := hP
  unfold BatteryPaceInv
  rw [mainLoopTick_batteryPercent, mainLoopTick_lastBatteryUpdate]
  by_cases hfire : tick.1 - s.lastBatteryUpdate > 6
  · simp only [if_pos hfire]
    refine ⟨min (j + 1) 100, min_le_right _ _, ?_, ?_⟩
    · rw [hb, stdMax_decrement j hj]
    · by_cases hlt : j + 1 < 100
      · left
        have hmin : min (j + 1) 100 = j + 1 := min_eq_left hlt.le
        rw [hmin]
        rcases hpace with hp | hp
        · push_cast
          linarith
        · omega
      · right
        exact min_eq_right (by omega)
  · simp only [if_neg hfire]
    exact ⟨j, hj, hb, hpace⟩

/-- A run ending with a tick at `T` establishes the battery invariant at `T`. -/
theorem batteryFiredInv_runLoop (boxes : List (BoundingBox K)) (ticks : List (K × Keys)) :
    ∀ (s : Loop K) (t : K) (last : K × Keys), BatteryFiredInv s t →
      BatteryFiredInv (runLoop boxes s (ticks ++ [last])) last.1 := by
  induction ticks with
  | nil =>
    intro s t last h
    exact batteryFiredInv_mainLoopTick boxes s last t h
  | cons tick rest ih =>
    intro s t last h
    exact ih (mainLoopTick boxes s tick) tick.1 last
      (batteryFiredInv_mainLoopTick boxes s tick t h)

/-- A run whose ticks, counted from `t`, are at most `g` apart preserves the
pace invariant. -/
theorem batteryPaceInv_runLoop (g : K) (boxes : List (BoundingBox K))
    (ticks : List (K × Keys)) :
    ∀ (s : Loop K) (t : K), BatteryFiredInv s t → BatteryPaceInv g s →
      List.Chain (fun a c => c - a ≤ g) t (ticks.map Prod.fst) →
      BatteryPaceInv g (runLoop boxes s ticks) := by
  induction ticks with
  | nil => intro s t _ hP _; exact hP
  | cons tick rest ih =>
    intro s t hA hP hchain
    rw [List.map_cons, List.chain_cons] at hchain
    exact ih (mainLoopTick boxes s tick) tick.1
      (batteryFiredInv_mainLoopTick boxes s tick t hA)
      (batteryPaceInv_mainLoopTick g boxes s tick t hA hP hchain.1) hchain.2

end BatteryLemmas

/-- The state on entry to the loop satisfies both battery invariants at time 0. -/
theorem batteryPace_initLoop {K : Type} [LinearOrderedField K] (g : K)
    (front right : Vec3 K) :
    BatteryFiredInv (initLoop front right) 0 ∧ BatteryPaceInv g (initLoop front right) := by
  refine ⟨⟨?_, 0, by norm_num, ?_, fun _ => rfl⟩, 0, by norm_num, ?_, Or.inl ?_⟩
  · show (0 : K) - 0 ≤ 6
    norm_num
  · show (100 : K) = 100 - ((0 : ℕ) : K)
    norm_num
  · show (100 : K) = 100 - ((0 : ℕ) : K)
    norm_num
  · show (0 : K) ≤ ((0 : ℕ) : K) * (6 + g)
    norm_num

/-- C4 as stated fails: with a single tick at time exactly `6 * 1` seconds the
battery update leaves the percentage at `100`, not at `max(0, 100 - 1) = 99`. -/
theorem battery_full_at_six_seconds :
    (runLoop [] (initLoop ⟨0, 0, -1⟩ ⟨1, 0, 0⟩ : Loop ℝ)
        [((6 : ℝ) * 1, noKeys)]).world.drone.batteryPercent = 100 ∧
    (100 : ℝ) ≠ max 0 (100 - 1) := by
  constructor
  · show (mainLoopTick _ _ _).world.drone.batteryPercent = 100
    rw [mainLoopTick_batteryPercent]
    norm_num [initLoop, initWorld]
  · norm_num

/-- C4, amended: starting from `batteryPercent = 100` and
`lastBatteryUpdate = 0`, for every `N >= 0` and every increasing sequence of
tick timestamps ending with a tick at time exactly `6 * N` seconds, the battery
percentage after that tick is `100 - j` for a whole number `j` of points lost
with `j <= 100`, `j <= N - 1` (no point lost when `N <= 1`) and `j >= 1` when
`N >= 2`; and when moreover `N >= 1` and consecutive ticks, the first counted
from time `0`, are at most `g` apart with `(N - 2) * g < 6`, the percentage is
exactly `max(0, 101 - N)`: the decrement fires only when more than 6 seconds
have passed since the previous one, so the count runs one behind `N`. -/
theorem battery_after_six_N (front right : Vec3 ℝ) (boxes : List (BoundingBox ℝ))
    (N : ℕ) (pre : List (ℝ × Keys)) (k : Keys)
    (hinc : List.Sorted (· < ·) ((pre ++ [((6 : ℝ) * N, k)]).map Prod.fst)) :
    (∃ j : ℕ, j ≤ 100 ∧ j ≤ N - 1 ∧ (2 ≤ N → 1 ≤ j) ∧
      (runLoop boxes (initLoop front right) (pre ++ [((6 : ℝ) * N, k)])).world.drone.batteryPercent
        = 100 - (j : ℝ)) ∧
    (1 ≤ N → ∀ g : ℝ, 0 ≤ g → ((N : ℝ) - 2) * g < 6 →
      List.Chain (fun a c => c - a ≤ g) 0 ((pre ++ [((6 : ℝ) * N, k)]).map Prod.fst) →
      (runLoop boxes (initLoop front right) (pre ++ [((6 : ℝ) * N, k)])).world.drone.batteryPercent
        = max 0 (101 - (N : ℝ))) := by
  have hinv := batteryInv_runLoop boxes (pre ++ [((6 : ℝ) * N, k)]) (initLoop front right) []
    (batteryInv_initLoop front right [])
  have hA := batteryFiredInv_runLoop boxes pre (initLoop front right) 0 ((6 : ℝ) * N, k)
    (batteryPace_initLoop (0 : ℝ) front right).1
  obtain ⟨j, hj, hb, hcase⟩ := hinv
  obtain ⟨hclose, j2, _, hb2, hzero⟩ := hA
  have hjj2 : j2 = j := by
    have h : (j2 : ℝ) = (j : ℝ) := by linarith [hb.symm.trans hb2]
    exact_mod_cast h
  subst hjj2
  have hupper : j2 ≤ N - 1 := by
    rcases hcase with ⟨hj0, _⟩ | ⟨hlt, hmem⟩
    · omega
    · have hle : (runLoop boxes (initLoop front right)
          (pre ++ [((6 : ℝ) * N, k)])).lastBatteryUpdate ≤ 6 * N := by
        rw [List.nil_append, List.map_append, List.mem_append] at hmem
        rcases hmem with hm | hm
        · rw [List.map_append] at hinc
          have hp := (List.pairwise_append.mp hinc).2.2 _ hm ((6 : ℝ) * N) (by simp)
          exact hp.le
        · simp at hm
          exact hm.le
      have hjN : (j2 : ℝ) < N := by linarith
      have : j2 < N := by exact_mod_cast hjN
      omega
  have hlower : 2 ≤ N → 1 ≤ j2 := by
    intro hN
    by_contra hlt
    have hj0 : j2 = 0 := by omega
    have hl := hzero hj0
    change (6 : ℝ) * N - _ ≤ 6 at hclose
    rw [hl] at hclose
    have hN2 : (2 : ℝ) ≤ N := by exact_mod_cast hN
    linarith
  refine ⟨⟨j2, hj, hupper, hlower, hb⟩, ?_⟩
  intro hN1 g hg hdense hchain
  obtain ⟨j3, _, hb3, hpace⟩ := batteryPaceInv_runLoop g boxes (pre ++ [((6 : ℝ) * N, k)])
    (initLoop front right) 0 (batteryPace_initLoop g front right).1
    (batteryPace_initLoop g front right).2 hchain
  have hj3 : j3 = j2 := by
    have h : (j3 : ℝ) = (j2 : ℝ) := by linarith [hb.symm.trans hb3]
    exact_mod_cast h
  subst hj3
  rw [hb]
  have hN1R : (1 : ℝ) ≤ N := by exact_mod_cast hN1
  rcases hpace with hp | h100
  · have hexact : j3 + 1 = N := by
      by_contra hne
      have hlt : j3 + 2 ≤ N := by omega
      have hltR : (j3 : ℝ) + 2 ≤ N := by exact_mod_cast hlt
      have hmul : (j3 : ℝ) * (6 + g) ≤ ((N : ℝ) - 2) * (6 + g) :=
        mul_le_mul_of_nonneg_right (by linarith) (by linarith)
      change (6 : ℝ) * N - _ ≤ 6 at hclose
      nlinarith
    have hNR : (N : ℝ) = (j3 : ℝ) + 1 := by exact_mod_cast hexact.symm
    have hj100 : (j3 : ℝ) ≤ 100 := by exact_mod_cast hj
    rw [max_eq_right (by linarith)]
    linarith
  · subst h100
    have hN101 : 101 ≤ N := by omega
    have hNR : (101 : ℝ) ≤ N := by exact_mod_cast hN101
    rw [max_eq_left (by linarith)]
    norm_num

/-- Witness of C4 (amended): ticks every 3 seconds up to `6 * 3 = 18` seconds
leave the battery at `max(0, 101 - 3)`, that is at 98. -/
theorem battery_after_six_N_witness :
    (∃ j : ℕ, j ≤ 100 ∧ j ≤ 3 - 1 ∧ (2 ≤ 3 → 1 ≤ j) ∧
      (runLoop [] (initLoop ⟨0, 0, -1⟩ ⟨1, 0, 0⟩)
        ([((3 : ℝ), noKeys), (6, keyW), (9, noKeys), (12, noKeys), (15, keyW)] ++
          [((6 : ℝ) * (3 : ℕ), keyW)])).world.drone.batteryPercent = 100 - (j : ℝ)) ∧
    (runLoop [] (initLoop ⟨0, 0, -1⟩ ⟨1, 0, 0⟩)
        ([((3 : ℝ), noKeys), (6, keyW), (9, noKeys), (12, noKeys), (15, keyW)] ++
          [((6 : ℝ) * (3 : ℕ), keyW)])).world.drone.batteryPercent
      = max 0 (101 - ((3 : ℕ) : ℝ)) :=
  ⟨(battery_after_six_N ⟨0, 0, -1⟩ ⟨1, 0, 0⟩ [] 3
      [((3 : ℝ), noKeys), (6, keyW), (9, noKeys), (12, noKeys), (15, keyW)] keyW
      (by simp [List.Sorted]; norm_num)).1,
   (battery_after_six_N ⟨0, 0, -1⟩ ⟨1, 0, 0⟩ [] 3
      [((3 : ℝ), noKeys), (6, keyW), (9, noKeys), (12, noKeys), (15, keyW)] keyW
      (by simp [List.Sorted]; norm_num)).2 (by norm_num) 3 (by norm_num) (by norm_num)
      (by simp [List.chain_cons]; norm_num)⟩

/-- C5: for every non-negative number `e` of elapsed seconds the values passed
to `createTimerVAO` are `hours = e / 3600`, `mins = (e % 3600) / 60` and
`secs = e % 60`; they satisfy `0 <= mins < 60`, `0 <= secs < 60`, `hours >= 0`
and `hours * 3600 + mins * 60 + secs = e`; and `e = 3661` gives `(1, 1, 1)`. -/
theorem timerArgs_decomposition (e : Int) (he : 0 ≤ e) :
    (timerArgs e).1 = e / 3600 ∧ (timerArgs e).2.1 = (e % 3600) / 60 ∧
    (timerArgs e).2.2 = e % 60 ∧
    0 ≤ (timerArgs e).2.1 ∧ (timerArgs e).2.1 < 60 ∧
    0 ≤ (timerArgs e).2.2 ∧ (timerArgs e).2.2 < 60 ∧
    0 ≤ (timerArgs e).1 ∧
    (timerArgs e).1 * 3600 + (timerArgs e).2.1 * 60 + (timerArgs e).2.2 = e ∧
    timerArgs 3661 = (1, 1, 1) := by
  have h1 : Int.tdiv e 3600 = e / 3600 := Int.tdiv_eq_ediv he (by norm_num)
  have h2 : Int.tmod e 3600 = e % 3600 := Int.tmod_eq_emod he (by norm_num)
  have h3 : Int.tmod e 60 = e % 60 := Int.tmod_eq_emod he (by norm_num)
  have h4 : Int.tdiv (e % 3600) 60 = (e % 3600) / 60 :=
    Int.tdiv_eq_ediv (Int.emod_nonneg _ (by norm_num)) (by norm_num)
  refine ⟨h1, ?_, h3, ?_, ?_, ?_, ?_, ?_, ?_, by decide⟩ <;>
    simp only [timerArgs, h1, h2, h3, h4] <;> omega

/-- Witness of C5: one day and one second. -/
theorem timerArgs_decomposition_witness :
    (0 : Int) ≤ 86401 ∧ (timerArgs 86401).1 = 86401 / 3600 ∧
    (timerArgs 86401).2.1 = (86401 % 3600) / 60 ∧
    (timerArgs 86401).2.2 = 86401 % 60 ∧
    0 ≤ (timerArgs 86401).2.1 ∧ (timerArgs 86401).2.1 < 60 ∧
    0 ≤ (timerArgs 86401).2.2 ∧ (timerArgs 86401).2.2 < 60 ∧
    0 ≤ (timerArgs 86401).1 ∧
    (timerArgs 86401).1 * 3600 + (timerArgs 86401).2.1 * 60 + (timerArgs 86401).2.2 = 86401 ∧
    timerArgs 3661 = (1, 1, 1) :=
  ⟨by decide, timerArgs_decomposition 86401 (by decide)⟩

/-- Every digit in `0..9` contributes at least one segment (two vertices, six floats). -/
theorem createDigitVertices_length {K : Type} [LinearOrderedField K] (d : Int)
    (h0 : 0 ≤ d) (h9 : d ≤ 9) (x y s : K) : 6 ≤ (createDigitVertices d x y s).length := by
  have hd : d = 0 ∨ d = 1 ∨ d = 2 ∨ d = 3 ∨ d = 4 ∨ d = 5 ∨ d = 6 ∨ d = 7 ∨ d = 8 ∨ d = 9 := by
    omega
  rcases hd with h | h | h | h | h | h | h | h | h | h <;> subst h <;>
    simp [createDigitVertices]

/-- The buffer of `createTimerVAO` is the six digit blocks and the two colons,
in display order. -/
theorem createTimerVAO_blocks {K : Type} [LinearOrderedField K] (hours mins secs : Int) :
    (createTimerVAO hours mins secs : List K) =
      createDigitVertices (Int.tdiv hours 10) (60 / 100) (-(70 / 100)) (12 / 1000) ++
      createDigitVertices (Int.tmod hours 10) (60 / 100 + 35 / 1000) (-(70 / 100)) (12 / 1000) ++
      colonVertices (60 / 100 + 35 / 1000 + 35 / 1000) (-(70 / 100)) (12 / 1000) ++
      createDigitVertices (Int.tdiv mins 10)
        (60 / 100 + 35 / 1000 + 35 / 1000 + 35 / 1000 * (7 / 10)) (-(70 / 100)) (12 / 1000) ++
      createDigitVertices (Int.tmod mins 10)
        (60 / 100 + 35 / 1000 + 35 / 1000 + 35 / 1000 * (7 / 10) + 35 / 1000)
        (-(70 / 100)) (12 / 1000) ++
      colonVertices
        (60 / 100 + 35 / 1000 + 35 / 1000 + 35 / 1000 * (7 / 10) + 35 / 1000 + 35 / 1000)
        (-(70 / 100)) (12 / 1000) ++
      createDigitVertices (Int.tdiv secs 10)
        (60 / 100 + 35 / 1000 + 35 / 1000 + 35 / 1000 * (7 / 10) + 35 / 1000 + 35 / 1000 +
          35 / 1000 * (7 / 10)) (-(70 / 100)) (12 / 1000) ++
      createDigitVertices (Int.tmod secs 10)
        (60 / 100 + 35 / 1000 + 35 / 1000 + 35 / 1000 * (7 / 10) + 35 / 1000 + 35 / 1000 +
          35 / 1000 * (7 / 10) + 35 / 1000) (-(70 / 100)) (12 / 1000) := by
  rfl

/-- C6 fails on the code at 100 hours: from a run started at time 1, the tick
at time 360001 has `elapsedTime = 360000` and passes `(100, 0, 0)` to
`createTimerVAO`, whose first digit argument is `hours / 10 = 10`, outside
`0..9`; `createDigitVertices` appends nothing for it, so the timer buffer
holds only the five other digits and the two colons, the first digit position
contributing no line segment. -/
theorem createTimerVAO_blank_first_digit :
    elapsedTime (360001 : ℚ) hundredHourLoop = 360000 ∧
    timerArgs 360000 = (100, 0, 0) ∧
    (timerHud (360001 : ℚ) hundredHourLoop).timerData = createTimerVAO 100 0 0 ∧
    (timerHud (360001 : ℚ) hundredHourLoop).timerCalls = [360000] ∧
    timerDigits 100 0 0 = [10, 0, 0, 0, 0, 0] ∧
    ¬ ((10 : Int) ≤ 9) ∧
    createDigitVertices 10 (60 / 100 : ℚ) (-(70 / 100)) (12 / 1000) = [] ∧
    (createTimerVAO 100 0 0 : List ℚ) =
      createDigitVertices 0 (60 / 100 + 35 / 1000) (-(70 / 100)) (12 / 1000) ++
      colonVertices (60 / 100 + 35 / 1000 + 35 / 1000) (-(70 / 100)) (12 / 1000) ++
      createDigitVertices 0
        (60 / 100 + 35 / 1000 + 35 / 1000 + 35 / 1000 * (7 / 10)) (-(70 / 100)) (12 / 1000) ++
      createDigitVertices 0
        (60 / 100 + 35 / 1000 + 35 / 1000 + 35 / 1000 * (7 / 10) + 35 / 1000)
        (-(70 / 100)) (12 / 1000) ++
      colonVertices
        (60 / 100 + 35 / 1000 + 35 / 1000 + 35 / 1000 * (7 / 10) + 35 / 1000 + 35 / 1000)
        (-(70 / 100)) (12 / 1000) ++
      createDigitVertices 0
        (60 / 100 + 35 / 1000 + 35 / 1000 + 35 / 1000 * (7 / 10) + 35 / 1000 + 35 / 1000 +
          35 / 1000 * (7 / 10)) (-(70 / 100)) (12 / 1000) ++
      createDigitVertices 0
        (60 / 100 + 35 / 1000 + 35 / 1000 + 35 / 1000 * (7 / 10) + 35 / 1000 + 35 / 1000 +
          35 / 1000 * (7 / 10) + 35 / 1000) (-(70 / 100)) (12 / 1000) ∧
    (createTimerVAO 100 0 0 : List ℚ).length = 5 * 24 + 2 * 12 := by
  have he : elapsedTime (360001 : ℚ) hundredHourLoop = 360000 := by
    have h1 : (360001 : ℚ) - 1 = ((360000 : Int) : ℚ) := by norm_num
    show truncToInt ((360001 : ℚ) - 1) = 360000
    unfold truncToInt
    rw [h1, if_pos (by norm_num), Int.floor_intCast]
  have hne : Int.tmod (elapsedTime (360001 : ℚ) hundredHourLoop) 60 ≠
      (hundredHourLoop : Loop ℚ).lastSecond := by
    rw [he]
    decide
  refine ⟨he, by decide, ?_, ?_, by decide, by decide, rfl, ?_, ?_⟩
  · unfold timerHud
    simp only [if_pos hne, he]
    rfl
  · unfold timerHud
    simp only [if_pos hne, he]
    rfl
  · rw [createTimerVAO_blocks]
    rfl
  · rw [createTimerVAO_blocks]
    rfl

/-- Below 100 hours every digit argument lies in `0..9`: for every
non-negative number `e` of elapsed seconds the five digit arguments
`hours % 10`, `mins / 10`, `mins % 10`, `secs / 10`, `secs % 10` lie in `0..9`,
and so does `hours / 10` when `e < 360000`; every digit argument in `0..9`
contributes at least one line segment, at any placement. -/
theorem timerDigits_in_range (e : Int) (he : 0 ≤ e) :
    (∀ d ∈ (timerDigits (timerArgs e).1 (timerArgs e).2.1 (timerArgs e).2.2).tail,
        0 ≤ d ∧ d ≤ 9 ∧ ∀ x y s : ℝ, 6 ≤ (createDigitVertices d x y s).length) ∧
    (e < 360000 →
      ∀ d ∈ timerDigits (timerArgs e).1 (timerArgs e).2.1 (timerArgs e).2.2,
        0 ≤ d ∧ d ≤ 9 ∧ ∀ x y s : ℝ, 6 ≤ (createDigitVertices d x y s).length) := by
  have h1 : Int.tdiv e 3600 = e / 3600 := Int.tdiv_eq_ediv he (by norm_num)
  have h2 : Int.tmod e 3600 = e % 3600 := Int.tmod_eq_emod he (by norm_num)
  have h3 : Int.tmod e 60 = e % 60 := Int.tmod_eq_emod he (by norm_num)
  have h4 : Int.tdiv (e % 3600) 60 = (e % 3600) / 60 :=
    Int.tdiv_eq_ediv (Int.emod_nonneg _ (by norm_num)) (by norm_num)
  have hh : 0 ≤ e / 3600 := Int.ediv_nonneg he (by norm_num)
  have hm : 0 ≤ (e % 3600) / 60 := Int.ediv_nonneg (Int.emod_nonneg _ (by norm_num)) (by norm_num)
  have hs : 0 ≤ e % 60 := Int.emod_nonneg _ (by norm_num)
  have a1 : Int.tdiv (e / 3600) 10 = (e / 3600) / 10 := Int.tdiv_eq_ediv hh (by norm_num)
  have a2 : Int.tmod (e / 3600) 10 = (e / 3600) % 10 := Int.tmod_eq_emod hh (by norm_num)
  have a3 : Int.tdiv ((e % 3600) / 60) 10 = ((e % 3600) / 60) / 10 :=
    Int.tdiv_eq_ediv hm (by norm_num)
  have a4 : Int.tmod ((e % 3600) / 60) 10 = ((e % 3600) / 60) % 10 :=
    Int.tmod_eq_emod hm (by norm_num)
  have a5 : Int.tdiv (e % 60) 10 = (e % 60) / 10 := Int.tdiv_eq_ediv hs (by norm_num)
  have a6 : Int.tmod (e % 60) 10 = (e % 60) % 10 := Int.tmod_eq_emod hs (by norm_num)
  have range : ∀ d : Int, 0 ≤ d → d ≤ 9 →
      0 ≤ d ∧ d ≤ 9 ∧ ∀ x y s : ℝ, 6 ≤ (createDigitVertices d x y s).length :=
    fun d hd0 hd9 => ⟨hd0, hd9, fun x y s => createDigitVertices_length d hd0 hd9 x y s⟩
  simp only [timerDigits, timerArgs, h1, h2, h3, h4, a1, a2, a3, a4, a5, a6, List.tail_cons,
    List.mem_cons, List.mem_singleton, List.not_mem_nil, or_false]
  constructor
  · rintro d (h | h | h | h | h) <;> subst h <;> apply range <;> omega
  · intro hlt
    rintro d (h | h | h | h | h | h) <;> subst h <;> apply range <;> omega

/-- The digit ranges at `e = 3661`, displayed as `01:01:01`. -/
theorem timerDigits_in_range_witness :
    (0 : Int) ≤ 3661 ∧
    (∀ d ∈ (timerDigits (timerArgs 3661).1 (timerArgs 3661).2.1 (timerArgs 3661).2.2).tail,
        0 ≤ d ∧ d ≤ 9 ∧ ∀ x y s : ℝ, 6 ≤ (createDigitVertices d x y s).length) ∧
    ((3661 : Int) < 360000 →
      ∀ d ∈ timerDigits (timerArgs 3661).1 (timerArgs 3661).2.1 (timerArgs 3661).2.2,
        0 ≤ d ∧ d ≤ 9 ∧ ∀ x y s : ℝ, 6 ≤ (createDigitVertices d x y s).length) :=
  ⟨by decide, timerDigits_in_range 3661 (by decide)⟩

/-- C7 as stated fails for a negative time step: from rest, with the forward
key pressed and `dt = -1`, the acceleration step leaves the velocity
`(0, 0, 35)`, not the pre-tick velocity `(0, 0, 0)`. -/
theorem accelerate_negative_dt_changes_velocity :
    (-1 : ℝ) ≤ 0 ∧
    accelerate (inputDir (sampleWorld : World ℝ).camera keyW)
      (sampleWorld : World ℝ).drone.velocity (-1) = ⟨0, 0, 35⟩ ∧
    (⟨0, 0, 35⟩ : Vec3 ℝ) ≠ (sampleWorld : World ℝ).drone.velocity := by
  refine ⟨by norm_num, ?_, ?_⟩
  · norm_num [accelerate, inputDir, sampleWorld, initWorld, keyW, noKeys, Vec3.length,
      Vec3.normalize, inversesqrt, Vec3.dot, Vec3.splat, Vec3.scale, Vec3.add, GlmSqrt.sqrt,
      ACCELERATION]
  · intro h
    have hz := congrArg Vec3.z h
    norm_num [sampleWorld, initWorld, Vec3.splat] at hz

/-- C7, amended: for the time step `dt = 0`, every pre-tick velocity and every
combination of direction keys, the velocity immediately after the acceleration
step equals the pre-tick velocity. -/
theorem accelerate_zero_dt {K : Type} [LinearOrderedField K] [GlmSqrt K]
    (cam : Camera K) (k : Keys) (vel : Vec3 K) :
    accelerate (inputDir cam k) vel 0 = vel := by
  unfold accelerate
  split_ifs
  · simp [Vec3.add, Vec3.scale]
  · rfl

section ExtractLemmas

variable {K : Type} [LinearOrderedField K]

/-- The running minimum of the fold of `meshBox`, seen through a coordinate
`p`: it is below the seed and below every vertex, and it is the seed or the
coordinate of some vertex. -/
theorem foldl_min_coord (p : Vec3 K → K)
    (hp : ∀ a b, p (Vec3.min a b) = if p b < p a then p b else p a) :
    ∀ (l : List (Vec3 K)) (acc : Vec3 K × Vec3 K),
      p (l.foldl (fun acc v => (Vec3.min acc.1 v, Vec3.max acc.2 v)) acc).1 ≤ p acc.1 ∧
      (∀ v ∈ l, p (l.foldl (fun acc v => (Vec3.min acc.1 v, Vec3.max acc.2 v)) acc).1 ≤ p v) ∧
      (p (l.foldl (fun acc v => (Vec3.min acc.1 v, Vec3.max acc.2 v)) acc).1 = p acc.1 ∨
        ∃ v ∈ l, p v = p (l.foldl (fun acc v => (Vec3.min acc.1 v, Vec3.max acc.2 v)) acc).1) := by
  intro l
  induction l with
  | nil => intro acc; simp
  | cons u rest ih =>
    intro acc
    obtain ⟨h1, h2, h3⟩ := ih (Vec3.min acc.1 u, Vec3.max acc.2 u)
    simp only [List.foldl_cons]
    have hstep : p (Vec3.min acc.1 u) ≤ p acc.1 ∧ p (Vec3.min acc.1 u) ≤ p u ∧
        (p (Vec3.min acc.1 u) = p acc.1 ∨ p (Vec3.min acc.1 u) = p u) := by
      rw [hp]
      split_ifs with hlt
      · exact ⟨hlt.le, le_refl _, Or.inr rfl⟩
      · exact ⟨le_refl _, not_lt.mp hlt, Or.inl rfl⟩
    refine ⟨le_trans h1 hstep.1, ?_, ?_⟩
    · intro v hv
      rcases List.mem_cons.mp hv with rfl | hv
      · exact le_trans h1 hstep.2.1
      · exact h2 v hv
    · rcases h3 with h3 | ⟨v, hv, hvx⟩
      · rcases hstep.2.2 with h4 | h4
        · exact Or.inl (h3.trans h4)
        · exact Or.inr ⟨u, List.mem_cons_self _ _, (h3.trans h4).symm⟩
      · exact Or.inr ⟨v, List.mem_cons_of_mem _ hv, hvx⟩

/-- The running maximum of the fold of `meshBox`, seen through a coordinate
`p`: it is above the seed and above every vertex, and it is the seed or the
coordinate of some vertex. -/
theorem foldl_max_coord (p : Vec3 K → K)
    (hp : ∀ a b, p (Vec3.max a b) = if p a < p b then p b else p a) :
    ∀ (l : List (Vec3 K)) (acc : Vec3 K × Vec3 K),
      p acc.2 ≤ p (l.foldl (fun acc v => (Vec3.min acc.1 v, Vec3.max acc.2 v)) acc).2 ∧
      (∀ v ∈ l, p v ≤ p (l.foldl (fun acc v => (Vec3.min acc.1 v, Vec3.max acc.2 v)) acc).2) ∧
      (p (l.foldl (fun acc v => (Vec3.min acc.1 v, Vec3.max acc.2 v)) acc).2 = p acc.2 ∨
        ∃ v ∈ l, p v = p (l.foldl (fun acc v => (Vec3.min acc.1 v, Vec3.max acc.2 v)) acc).2) := by
  intro l
  induction l with
  | nil => intro acc; simp
  | cons u rest ih =>
    intro acc
    obtain ⟨h1, h2, h3⟩ := ih (Vec3.min acc.1 u, Vec3.max acc.2 u)
    simp only [List.foldl_cons]
    have hstep : p acc.2 ≤ p (Vec3.max acc.2 u) ∧ p u ≤ p (Vec3.max acc.2 u) ∧
        (p (Vec3.max acc.2 u) = p acc.2 ∨ p (Vec3.max acc.2 u) = p u) := by
      rw [hp]
      split_ifs with hlt
      · exact ⟨hlt.le, le_refl _, Or.inr rfl⟩
      · exact ⟨le_refl _, not_lt.mp hlt, Or.inl rfl⟩
    refine ⟨le_trans hstep.1 h1, ?_, ?_⟩
    · intro v hv
      rcases List.mem_cons.mp hv with rfl | hv
      · exact le_trans hstep.2.1 h1
      · exact h2 v hv
    · rcases h3 with h3 | ⟨v, hv, hvx⟩
      · rcases hstep.2.2 with h4 | h4
        · exact Or.inl (h3.trans h4)
        · exact Or.inr ⟨u, List.mem_cons_self _ _, (h3.trans h4).symm⟩
      · exact Or.inr ⟨v, List.mem_cons_of_mem _ hv, hvx⟩

/-- Through a coordinate `p` bounded by the seeds on a non-empty mesh, the
box of `meshBox` encloses every vertex and both of its faces are attained. -/
theorem meshBox_coord (p : Vec3 K → K)
    (hmin : ∀ a b, p (Vec3.min a b) = if p b < p a then p b else p a)
    (hmax : ∀ a b, p (Vec3.max a b) = if p a < p b then p b else p a)
    (hsplat : ∀ c : K, p (Vec3.splat c) = c)
    (mesh : List (Vec3 K)) (hne : mesh ≠ [])
    (hb : ∀ v ∈ mesh, -BIG ≤ p v ∧ p v ≤ BIG) :
    (∀ v ∈ mesh, p (meshBox mesh).min ≤ p v ∧ p v ≤ p (meshBox mesh).max) ∧
    (∃ v ∈ mesh, p v = p (meshBox mesh).min) ∧ (∃ v ∈ mesh, p v = p (meshBox mesh).max) := by
  obtain ⟨a1, a2, a3⟩ := foldl_min_coord p hmin mesh (Vec3.splat BIG, Vec3.splat (-BIG))
  obtain ⟨b1, b2, b3⟩ := foldl_max_coord p hmax mesh (Vec3.splat BIG, Vec3.splat (-BIG))
  obtain ⟨u, hu⟩ := List.exists_mem_of_ne_nil mesh hne
  simp only [hsplat] at a1 a3 b1 b3
  refine ⟨fun v hv => ⟨a2 v hv, b2 v hv⟩, ?_, ?_⟩
  · rcases a3 with h | h
    · exact ⟨u, hu, le_antisymm (le_of_le_of_eq (hb u hu).2 h.symm) (a2 u hu)⟩
    · exact h
  · rcases b3 with h | h
    · exact ⟨u, hu, le_antisymm (b2 u hu) (le_of_eq_of_le h (hb u hu).1)⟩
    · exact h

end ExtractLemmas

/-- C8 as stated fails beyond the seeds: for a mesh with the single vertex
`(2e10, 0, 0)` the min corner has x coordinate `1e10`, which is not the
minimum `2e10` of the vertex x coordinates and is attained by no vertex. -/
theorem ExtractData_min_not_attained :
    ([hugeVertex] : List (Vec3 ℚ)) ≠ [] ∧
    (ExtractData [[(hugeVertex : Vec3 ℚ)]] []).1.map (fun box => box.min.x) = [10000000000] ∧
    (hugeVertex : Vec3 ℚ).x = 20000000000 ∧
    ¬ ∃ v ∈ ([hugeVertex] : List (Vec3 ℚ)), v.x = 10000000000 := by
  refine ⟨by simp, ?_, rfl, ?_⟩
  · norm_num [ExtractData, meshBox, Vec3.min, Vec3.splat, BIG, hugeVertex]
  · norm_num [hugeVertex]

/-- C8, amended: for every collection of obstacle meshes in which each mesh
has at least one vertex and every vertex coordinate lies between `-1e10` and
`1e10`, `ExtractData` produces exactly one box per mesh, in mesh order, that
encloses every vertex of its mesh on each axis and each of whose six
coordinates is attained by some vertex of the mesh. -/
theorem ExtractData_boxes_tight {K : Type} [LinearOrderedField K]
    (house lights : List (List (Vec3 K)))
    (hne : ∀ mesh ∈ house, mesh ≠ [])
    (hbig : ∀ mesh ∈ house, ∀ v ∈ mesh,
      (-BIG ≤ v.x ∧ v.x ≤ BIG) ∧ (-BIG ≤ v.y ∧ v.y ≤ BIG) ∧ (-BIG ≤ v.z ∧ v.z ≤ BIG)) :
    (ExtractData house lights).1.length = house.length ∧
    ∀ (i : ℕ) (hi : i < house.length) (hb : i < (ExtractData house lights).1.length),
      (∀ v ∈ house[i],
        ((ExtractData house lights).1[i].min.x ≤ v.x ∧ v.x ≤ (ExtractData house lights).1[i].max.x) ∧
        ((ExtractData house lights).1[i].min.y ≤ v.y ∧ v.y ≤ (ExtractData house lights).1[i].max.y) ∧
        ((ExtractData house lights).1[i].min.z ≤ v.z ∧ v.z ≤ (ExtractData house lights).1[i].max.z)) ∧
      (∃ v ∈ house[i], v.x = (ExtractData house lights).1[i].min.x) ∧
      (∃ v ∈ house[i], v.y = (ExtractData house lights).1[i].min.y) ∧
      (∃ v ∈ house[i], v.z = (ExtractData house lights).1[i].min.z) ∧
      (∃ v ∈ house[i], v.x = (ExtractData house lights).1[i].max.x) ∧
      (∃ v ∈ house[i], v.y = (ExtractData house lights).1[i].max.y) ∧
      (∃ v ∈ house[i], v.z = (ExtractData house lights).1[i].max.z) := by
  refine ⟨by simp [ExtractData], ?_⟩
  intro i hi hb
  have hbox : (ExtractData house lights).1[i] = meshBox house[i] := by
    simp [ExtractData]
  rw [hbox]
  have hmem : house[i] ∈ house := List.getElem_mem _
  have hn := hne _ hmem
  have hB := hbig _ hmem
  obtain ⟨x1, x2, x3⟩ := meshBox_coord (fun v : Vec3 K => v.x) (fun _ _ => rfl) (fun _ _ => rfl)
    (fun _ => rfl) house[i] hn (fun v hv => (hB v hv).1)
  obtain ⟨y1, y2, y3⟩ := meshBox_coord (fun v : Vec3 K => v.y) (fun _ _ => rfl) (fun _ _ => rfl)
    (fun _ => rfl) house[i] hn (fun v hv => (hB v hv).2.1)
  obtain ⟨z1, z2, z3⟩ := meshBox_coord (fun v : Vec3 K => v.z) (fun _ _ => rfl) (fun _ _ => rfl)
    (fun _ => rfl) house[i] hn (fun v hv => (hB v hv).2.2)
  exact ⟨fun v hv => ⟨x1 v hv, y1 v hv, z1 v hv⟩, x2, y2, z2, x3, y3, z3⟩

/-- Witness of C8 (amended): a house of one mesh with two vertices. -/
theorem ExtractData_boxes_tight_witness :
    (ExtractData [(smallMesh : List (Vec3 ℚ))] []).1.length = [(smallMesh : List (Vec3 ℚ))].length ∧
    ∀ (i : ℕ) (hi : i < [(smallMesh : List (Vec3 ℚ))].length)
      (hb : i < (ExtractData [(smallMesh : List (Vec3 ℚ))] []).1.length),
      (∀ v ∈ [(smallMesh : List (Vec3 ℚ))][i],
        ((ExtractData [smallMesh] []).1[i].min.x ≤ v.x ∧ v.x ≤ (ExtractData [smallMesh] []).1[i].max.x) ∧
        ((ExtractData [smallMesh] []).1[i].min.y ≤ v.y ∧ v.y ≤ (ExtractData [smallMesh] []).1[i].max.y) ∧
        ((ExtractData [smallMesh] []).1[i].min.z ≤ v.z ∧ v.z ≤ (ExtractData [smallMesh] []).1[i].max.z)) ∧
      (∃ v ∈ [(smallMesh : List (Vec3 ℚ))][i], v.x = (ExtractData [smallMesh] []).1[i].min.x) ∧
      (∃ v ∈ [(smallMesh : List (Vec3 ℚ))][i], v.y = (ExtractData [smallMesh] []).1[i].min.y) ∧
      (∃ v ∈ [(smallMesh : List (Vec3 ℚ))][i], v.z = (ExtractData [smallMesh] []).1[i].min.z) ∧
      (∃ v ∈ [(smallMesh : List (Vec3 ℚ))][i], v.x = (ExtractData [smallMesh] []).1[i].max.x) ∧
      (∃ v ∈ [(smallMesh : List (Vec3 ℚ))][i], v.y = (ExtractData [smallMesh] []).1[i].max.y) ∧
      (∃ v ∈ [(smallMesh : List (Vec3 ℚ))][i], v.z = (ExtractData [smallMesh] []).1[i].max.z) :=
  ExtractData_boxes_tight [smallMesh] []
    (by simp [smallMesh])
    (by
      intro mesh hmesh v hv
      rw [List.mem_singleton] at hmesh
      subst hmesh
      simp only [smallMesh, List.mem_cons, List.mem_singleton, List.not_mem_nil, or_false] at hv
      rcases hv with rfl | rfl <;> norm_num [BIG])

/-- C9: in `createBatteryVAO`, with exact arithmetic, the fill width is `0` at
`percent = 0` and the fill is omitted, the buffer holding only the 14 vertices
(42 floats) of the 7 outline and nub segments; at `percent = 100` the fill
width is the interior width `w - 0.008 = 0.072`, the buffer holds 22 vertices
(66 floats), and the four fill segments run from `x + 0.004` to
`x + w - 0.004` (and from `y - 0.004` to `y - h + 0.004`), where `x = -0.85`,
`y = 0.75`, `w = 0.08`, `h = 0.04`. -/
theorem createBatteryVAO_fill_extremes {K : Type} [LinearOrderedField K] :
    batteryFillW (8 / 100 : K) 0 = 0 ∧
    (createBatteryVAO (0 : K)).length = 3 * 14 ∧
    batteryFillW (8 / 100 : K) 100 = 8 / 100 - 8 / 1000 ∧
    (8 / 100 - 8 / 1000 : K) = 72 / 1000 ∧
    (createBatteryVAO (100 : K)).length = 3 * 22 ∧
    (createBatteryVAO (100 : K)).take (3 * 14) = createBatteryVAO (0 : K) ∧
    (createBatteryVAO (100 : K)).drop (3 * 14) =
      [-(85 / 100) + 4 / 1000, 75 / 100 - 4 / 1000, 0,
       -(85 / 100) + 8 / 100 - 4 / 1000, 75 / 100 - 4 / 1000, 0,
       -(85 / 100) + 8 / 100 - 4 / 1000, 75 / 100 - 4 / 1000, 0,
       -(85 / 100) + 8 / 100 - 4 / 1000, 75 / 100 - 4 / 100 + 4 / 1000, 0,
       -(85 / 100) + 8 / 100 - 4 / 1000, 75 / 100 - 4 / 100 + 4 / 1000, 0,
       -(85 / 100) + 4 / 1000, 75 / 100 - 4 / 100 + 4 / 1000, 0,
       -(85 / 100) + 4 / 1000, 75 / 100 - 4 / 100 + 4 / 1000, 0,
       -(85 / 100) + 4 / 1000, 75 / 100 - 4 / 1000, 0] := by
  have h0 : ¬ (batteryFillW (8 / 100 : K) 0 > 1 / 1000) := by norm_num [batteryFillW]
  have h100 : batteryFillW (8 / 100 : K) 100 > 1 / 1000 := by norm_num [batteryFillW]
  have hw : batteryFillW (8 / 100 : K) 100 = 72 / 1000 := by norm_num [batteryFillW]
  refine ⟨by norm_num [batteryFillW], ?_, by norm_num [batteryFillW], by norm_num, ?_, ?_, ?_⟩
  · simp only [createBatteryVAO, if_neg h0]
    rfl
  · simp only [createBatteryVAO, if_pos h100]
    rfl
  · simp only [createBatteryVAO, if_pos h100, if_neg h0]
    rfl
  · simp only [createBatteryVAO, if_pos h100, hw]
    norm_num

section HudProjections

variable {K : Type} [LinearOrderedField K]

/-- The record of timer calls after the timer step. -/
theorem timerHud_timerCalls [FloorRing K] (t : K) (s : Loop K) :
    (timerHud t s).timerCalls =
      if Int.tmod (elapsedTime t s) 60 ≠ s.lastSecond then s.timerCalls ++ [elapsedTime t s]
      else s.timerCalls := by
  unfold timerHud
  dsimp only
  split_ifs <;> rfl

/-- The value of `lastSecond` after the timer step. -/
theorem timerHud_lastSecond [FloorRing K] (t : K) (s : Loop K) :
    (timerHud t s).lastSecond =
      if Int.tmod (elapsedTime t s) 60 ≠ s.lastSecond then Int.tmod (elapsedTime t s) 60
      else s.lastSecond := by
  unfold timerHud
  dsimp only
  split_ifs <;> rfl

/-- After the battery HUD step `lastBatteryPercent` is the current percentage. -/
theorem batteryHud_lastBatteryPercent (s : Loop K) :
    (batteryHud s).lastBatteryPercent = s.world.drone.batteryPercent := by
  unfold batteryHud callCreateBatteryVAO
  dsimp only
  split_ifs with h1 h2 h3
  · rfl
  · rfl
  · exact (not_not.mp h1).symm
  · exact (not_not.mp h1).symm

/-- After the battery HUD step a battery buffer exists. -/
theorem batteryHud_batteryVAO_ne_zero (s : Loop K) : (batteryHud s).batteryVAO ≠ 0 := by
  unfold batteryHud callCreateBatteryVAO
  dsimp only
  split_ifs with h1 h2 h3
  · exact Nat.succ_ne_zero _
  · exact h2
  · exact Nat.succ_ne_zero _
  · exact h3

/-- The record of battery calls after the battery HUD step. -/
theorem batteryHud_batteryCalls (s : Loop K) :
    (batteryHud s).batteryCalls =
      if s.world.drone.batteryPercent ≠ s.lastBatteryPercent ∨ s.batteryVAO = 0 then
        s.batteryCalls ++ [s.world.drone.batteryPercent]
      else s.batteryCalls := by
  unfold batteryHud callCreateBatteryVAO
  dsimp only
  by_cases h1 : s.world.drone.batteryPercent ≠ s.lastBatteryPercent
  · simp [h1]
  · by_cases h2 : s.batteryVAO = 0
    · simp [h1, h2]
    · simp [h1, h2]

/-- The elapsed time depends on the state only through the start time. -/
theorem elapsedTime_congr [FloorRing K] (t : K) (s s' : Loop K)
    (h : s.world.drone.startTime = s'.world.drone.startTime) :
    elapsedTime t s = elapsedTime t s' := by
  unfold elapsedTime
  rw [h]

/-- The start time after one tick is the one fixed by the start-time step. -/
theorem mainLoopTick_startTime [FloorRing K] [GlmSqrt K]
    (boxes : List (BoundingBox K)) (s : Loop K) (tick : K × Keys) :
    (mainLoopTick boxes s tick).world.drone.startTime =
      (initStartTime tick.1 s).world.drone.startTime := by
  unfold mainLoopTick
  dsimp only
  rw [distanceCheck_startTime, processInput_startTime, (batteryHud_rest _).1,
    (timerHud_rest _ _).1, (batteryUpdate_rest _ _).1, initStartTime_startTime,
    initStartTime_startTime]
  rfl

/-- The record of timer calls after one tick. -/
theorem mainLoopTick_timerCalls [FloorRing K] [GlmSqrt K]
    (boxes : List (BoundingBox K)) (s : Loop K) (tick : K × Keys) :
    (mainLoopTick boxes s tick).timerCalls =
      if Int.tmod (elapsedTime tick.1 (initStartTime tick.1 s)) 60 ≠ s.lastSecond then
        s.timerCalls ++ [elapsedTime tick.1 (initStartTime tick.1 s)]
      else s.timerCalls := by
  have he : elapsedTime tick.1 (batteryUpdate tick.1 (initStartTime tick.1
      (frameTiming tick.1 s))) = elapsedTime tick.1 (initStartTime tick.1 s) := by
    apply elapsedTime_congr
    rw [(batteryUpdate_rest _ _).1, initStartTime_startTime, initStartTime_startTime]
    rfl
  unfold mainLoopTick
  dsimp only
  rw [(batteryHud_rest _).2.2.2, timerHud_timerCalls, he, (batteryUpdate_rest _ _).2.1,
    (batteryUpdate_rest _ _).2.2.2.2.1, (initStartTime_rest _ _).2.1,
    (initStartTime_rest _ _).2.2.2.2.1]
  rfl

/-- The value of `lastSecond` after one tick. -/
theorem mainLoopTick_lastSecond [FloorRing K] [GlmSqrt K]
    (boxes : List (BoundingBox K)) (s : Loop K) (tick : K × Keys) :
    (mainLoopTick boxes s tick).lastSecond =
      if Int.tmod (elapsedTime tick.1 (initStartTime tick.1 s)) 60 ≠ s.lastSecond then
        Int.tmod (elapsedTime tick.1 (initStartTime tick.1 s)) 60
      else s.lastSecond := by
  have he : elapsedTime tick.1 (batteryUpdate tick.1 (initStartTime tick.1
      (frameTiming tick.1 s))) = elapsedTime tick.1 (initStartTime tick.1 s) := by
    apply elapsedTime_congr
    rw [(batteryUpdate_rest _ _).1, initStartTime_startTime, initStartTime_startTime]
    rfl
  unfold mainLoopTick
  dsimp only
  rw [(batteryHud_rest _).2.2.1, timerHud_lastSecond, he, (batteryUpdate_rest _ _).2.1,
    (initStartTime_rest _ _).2.1]
  rfl

/-- The battery percentage after one tick is the one left by the battery update. -/
theorem mainLoopTick_batteryPercent_eq [FloorRing K] [GlmSqrt K]
    (boxes : List (BoundingBox K)) (s : Loop K) (tick : K × Keys) :
    (mainLoopTick boxes s tick).world.drone.batteryPercent =
      (batteryUpdate tick.1 s).world.drone.batteryPercent := by
  rw [mainLoopTick_batteryPercent, batteryUpdate_batteryPercent]

/-- After one tick `lastBatteryPercent` is the current percentage. -/
theorem mainLoopTick_lastBatteryPercent [FloorRing K] [GlmSqrt K]
    (boxes : List (BoundingBox K)) (s : Loop K) (tick : K × Keys) :
    (mainLoopTick boxes s tick).lastBatteryPercent =
      (batteryUpdate tick.1 s).world.drone.batteryPercent := by
  unfold mainLoopTick
  dsimp only
  rw [batteryHud_lastBatteryPercent, (timerHud_rest _ _).1, batteryUpdate_batteryPercent,
    batteryUpdate_batteryPercent, initStartTime_batteryPercent, (initStartTime_rest _ _).1]
  rfl

/-- After one tick a battery buffer exists. -/
theorem mainLoopTick_batteryVAO_ne_zero [FloorRing K] [GlmSqrt K]
    (boxes : List (BoundingBox K)) (s : Loop K) (tick : K × Keys) :
    (mainLoopTick boxes s tick).batteryVAO ≠ 0 := by
  unfold mainLoopTick
  dsimp only
  exact batteryHud_batteryVAO_ne_zero _

/-- The record of battery calls after one tick. -/
theorem mainLoopTick_batteryCalls [FloorRing K] [GlmSqrt K]
    (boxes : List (BoundingBox K)) (s : Loop K) (tick : K × Keys) :
    (mainLoopTick boxes s tick).batteryCalls =
      if (batteryUpdate tick.1 s).world.drone.batteryPercent ≠ s.lastBatteryPercent ∨
          s.batteryVAO = 0 then
        s.batteryCalls ++ [(batteryUpdate tick.1 s).world.drone.batteryPercent]
      else s.batteryCalls := by
  have hb : (timerHud tick.1 (batteryUpdate tick.1 (initStartTime tick.1
      (frameTiming tick.1 s)))).world.drone.batteryPercent =
      (batteryUpdate tick.1 s).world.drone.batteryPercent := by
    rw [(timerHud_rest _ _).1, batteryUpdate_batteryPercent, batteryUpdate_batteryPercent,
      initStartTime_batteryPercent, (initStartTime_rest _ _).1]
    rfl
  unfold mainLoopTick
  dsimp only
  rw [batteryHud_batteryCalls, hb, (timerHud_rest _ _).2.2.1, (timerHud_rest _ _).2.2.2.1,
    (timerHud_rest _ _).2.2.2.2, (batteryUpdate_rest _ _).2.2.1,
    (batteryUpdate_rest _ _).2.2.2.1, (batteryUpdate_rest _ _).2.2.2.2.2,
    (initStartTime_rest _ _).2.2.1, (initStartTime_rest _ _).2.2.2.1,
    (initStartTime_rest _ _).2.2.2.2.2]
  rfl

/-- The battery update never raises a non-negative percentage and keeps it
non-negative. -/
theorem batteryUpdate_bounds (t : K) (s : Loop K) (h : 0 ≤ s.world.drone.batteryPercent) :
    0 ≤ (batteryUpdate t s).world.drone.batteryPercent ∧
    (batteryUpdate t s).world.drone.batteryPercent ≤ s.world.drone.batteryPercent := by
  rw [batteryUpdate_batteryPercent]
  unfold stdMax
  split_ifs with h1 h2
  · exact ⟨h2.le, by linarith⟩
  · exact ⟨le_refl _, h⟩
  · exact ⟨h, le_refl _⟩

end HudProjections

section HudInvariants

variable {K : Type} [LinearOrderedField K] [FloorRing K]

/-- Truncation of zero. -/
theorem truncToInt_zero : truncToInt (0 : K) = 0 := by
  simp [truncToInt]

/-- Truncation toward zero is monotone. -/
theorem truncToInt_mono {x y : K} (h : x ≤ y) : truncToInt x ≤ truncToInt y := by
  unfold truncToInt
  split_ifs with hx hy hy
  · exact Int.floor_le_floor h
  · exact absurd (le_trans hx h) hy
  · have h1 : ⌈x⌉ ≤ 0 := Int.ceil_le.mpr (by push_cast; exact (not_le.mp hx).le)
    have h2 : 0 ≤ ⌊y⌋ := Int.floor_nonneg.mpr hy
    exact le_trans h1 h2
  · exact Int.ceil_le_ceil h

/-- Truncation of a non-negative scalar is non-negative. -/
theorem truncToInt_nonneg {x : K} (h : 0 ≤ x) : 0 ≤ truncToInt x := by
  have := truncToInt_mono h
  rwa [truncToInt_zero] at this

variable [GlmSqrt K]

/-- One tick at a timestamp not before `t` preserves the timer invariant. -/
theorem timerInv_mainLoopTick (boxes : List (BoundingBox K)) (s : Loop K)
    (tick : K × Keys) (t : K) (h : TimerInv s t) (ht : t ≤ tick.1) :
    TimerInv (mainLoopTick boxes s tick) tick.1 := by
  obtain ⟨hsorted, hcase⟩ := h
  have hel : elapsedTime tick.1 (initStartTime tick.1 s) =
      truncToInt (tick.1 - (if s.world.drone.startTime = 0 then tick.1
        else s.world.drone.startTime)) := by
    unfold elapsedTime
    rw [initStartTime_startTime]
  unfold TimerInv
  rw [mainLoopTick_timerCalls, mainLoopTick_lastSecond, mainLoopTick_startTime,
    initStartTime_startTime, hel]
  rcases hcase with ⟨hnil, hst, hls⟩ | ⟨hle, hzero, e, hlast, he0, hebound, hls, hmax⟩
  · -- nothing rendered yet: this tick fixes the start time and renders second 0
    have hne : Int.tmod (0 : Int) 60 ≠ s.lastSecond := by rw [hls]; decide
    simp only [hst, if_true, sub_self, truncToInt_zero, hne, ne_eq, not_false_eq_true, hnil,
      List.nil_append]
    refine ⟨List.sorted_singleton _, Or.inr ⟨le_refl _, fun h0 => h0, 0, rfl, le_refl _,
      le_refl _, rfl, ?_⟩⟩
    intro x hx
    rw [List.mem_singleton] at hx
    exact hx.le
  · by_cases hst : s.world.drone.startTime = 0
    · -- all ticks so far were at time 0
      have ht0 := hzero hst
      have he : e = 0 := by
        rw [hst, ht0, sub_self, truncToInt_zero] at hebound
        omega
      subst he
      have heq : ¬ (Int.tmod (0 : Int) 60 ≠ s.lastSecond) := by rw [hls]; simp
      simp only [hst, if_true, sub_self, truncToInt_zero, heq, if_false]
      exact ⟨hsorted, Or.inr ⟨le_refl _, fun h0 => h0, 0, hlast, le_refl _, le_refl _, hls,
        hmax⟩⟩
    · simp only [if_neg hst]
      have hmono : truncToInt (t - s.world.drone.startTime) ≤
          truncToInt (tick.1 - s.world.drone.startTime) :=
        truncToInt_mono (by linarith)
      have hge : e ≤ truncToInt (tick.1 - s.world.drone.startTime) := le_trans hebound hmono
      by_cases hdiff : Int.tmod (truncToInt (tick.1 - s.world.drone.startTime)) 60 ≠ s.lastSecond
      · simp only [if_pos hdiff]
        have hne : e ≠ truncToInt (tick.1 - s.world.drone.startTime) := by
          intro heq
          apply hdiff
          rw [hls, heq]
        have hlt : e < truncToInt (tick.1 - s.world.drone.startTime) := lt_of_le_of_ne hge hne
        refine ⟨?_, Or.inr ⟨le_trans hle ht, fun h0 => absurd h0 hst, _,
          List.getLast?_concat _, le_trans he0 hge, le_refl _, rfl, ?_⟩⟩
        · unfold List.Sorted
          rw [List.pairwise_append]
          refine ⟨hsorted, List.pairwise_singleton _ _, ?_⟩
          intro a ha b hb
          rw [List.mem_singleton] at hb
          rw [hb]
          exact lt_of_le_of_lt (hmax a ha) hlt
        · intro x hx
          rcases List.mem_append.mp hx with hx | hx
          · exact le_trans (hmax x hx) hge
          · rw [List.mem_singleton] at hx
            exact hx.le
      · simp only [if_neg hdiff]
        exact ⟨hsorted, Or.inr ⟨le_trans hle ht, fun h0 => absurd h0 hst, e, hlast, he0, hge,
          hls, hmax⟩⟩

/-- One tick preserves the battery-gauge invariant. -/
theorem batteryHudInv_mainLoopTick (boxes : List (BoundingBox K)) (s : Loop K)
    (tick : K × Keys) (h : BatteryHudInv s) : BatteryHudInv (mainLoopTick boxes s tick) := by
  obtain ⟨hb0, hlbp, hsorted, hlow, hcase⟩ := h
  obtain ⟨h1, h2⟩ := batteryUpdate_bounds tick.1 s hb0
  have hvao := mainLoopTick_batteryVAO_ne_zero boxes s tick
  unfold BatteryHudInv
  rw [mainLoopTick_batteryCalls, mainLoopTick_lastBatteryPercent, mainLoopTick_batteryPercent_eq]
  refine ⟨h1, rfl, ?_, ?_, Or.inr ⟨hvao, ?_⟩⟩
  · split_ifs with hregen
    · unfold List.Sorted
      rw [List.pairwise_append]
      refine ⟨hsorted, List.pairwise_singleton _ _, ?_⟩
      intro a ha b hb
      rw [List.mem_singleton] at hb
      rw [hb]
      rcases hregen with hne | hzero
      · rw [hlbp] at hne
        exact lt_of_lt_of_le (lt_of_le_of_ne h2 hne) (hlow a ha)
      · rcases hcase with ⟨_, hnil⟩ | ⟨hnz, _⟩
        · rw [hnil] at ha
          exact absurd ha (List.not_mem_nil _)
        · exact absurd hzero hnz
    · exact hsorted
  · split_ifs with hregen
    · intro x hx
      rcases List.mem_append.mp hx with hx | hx
      · exact le_trans h2 (hlow x hx)
      · rw [List.mem_singleton] at hx
        exact hx.ge
    · intro x hx
      exact le_trans h2 (hlow x hx)
  · split_ifs with hregen
    · exact List.getLast?_concat _
    · rw [not_or, not_not] at hregen
      rcases hcase with ⟨hz, _⟩ | ⟨_, hlast⟩
      · exact absurd hz hregen.2
      · rw [hlast, hregen.1, hlbp]

end HudInvariants

/-- The state on entry to the loop satisfies both HUD invariants. -/
theorem hudInv_initLoop {K : Type} [LinearOrderedField K] [FloorRing K]
    (front right : Vec3 K) (t : K) :
    TimerInv (initLoop front right) t ∧ BatteryHudInv (initLoop front right) := by
  refine ⟨⟨List.sorted_nil, Or.inl ⟨rfl, rfl, rfl⟩⟩, ?_, rfl, List.sorted_nil, ?_, Or.inl ⟨rfl, rfl⟩⟩
  · show (0 : K) ≤ 100
    norm_num
  · intro x hx
    exact absurd hx (List.not_mem_nil _)

section HudRun

variable {K : Type} [LinearOrderedField K] [FloorRing K] [GlmSqrt K]

/-- A run over non-decreasing timestamps, none before `t`, preserves both HUD
invariants. -/
theorem hudInv_runLoop (boxes : List (BoundingBox K)) (ticks : List (K × Keys)) :
    ∀ (s : Loop K) (t : K), TimerInv s t → BatteryHudInv s →
      List.Pairwise (· ≤ ·) (t :: ticks.map Prod.fst) →
      (∃ t1, TimerInv (runLoop boxes s ticks) t1) ∧ BatteryHudInv (runLoop boxes s ticks) := by
  induction ticks with
  | nil => intro s t h1 h2 _; exact ⟨⟨t, h1⟩, h2⟩
  | cons tick rest ih =>
    intro s t h1 h2 hp
    rw [List.map_cons, List.pairwise_cons] at hp
    have ht : t ≤ tick.1 := hp.1 _ (List.mem_cons_self _ _)
    exact ih (mainLoopTick boxes s tick) tick.1 (timerInv_mainLoopTick boxes s tick t h1 ht)
      (batteryHudInv_mainLoopTick boxes s tick h2) hp.2

/-- Every state reached from the initial one over non-decreasing timestamps
satisfies both HUD invariants. -/
theorem hudInv_reachable (front right : Vec3 K) (boxes : List (BoundingBox K))
    (ticks : List (K × Keys)) (hmono : List.Sorted (· ≤ ·) (ticks.map Prod.fst)) :
    (∃ t1, TimerInv (runLoop boxes (initLoop front right) ticks) t1) ∧
      BatteryHudInv (runLoop boxes (initLoop front right) ticks) := by
  cases ticks with
  | nil => exact ⟨⟨0, (hudInv_initLoop front right 0).1⟩, (hudInv_initLoop front right 0).2⟩
  | cons tick rest =>
    apply hudInv_runLoop boxes (tick :: rest) (initLoop front right) tick.1
      (hudInv_initLoop front right tick.1).1 (hudInv_initLoop front right tick.1).2
    rw [List.map_cons] at hmono ⊢
    rw [List.pairwise_cons]
    refine ⟨?_, hmono⟩
    intro a ha
    rcases List.mem_cons.mp ha with rfl | ha
    · exact le_refl _
    · exact (List.pairwise_cons.mp hmono).1 a ha

end HudRun

/-- C10: for every run of the main loop over non-decreasing tick timestamps,
no value of `elapsedTime` occurs twice in the record of `createTimerVAO` calls
and no percentage occurs twice in the record of `createBatteryVAO` calls (each
buffer is regenerated at most once per distinct value); and a further tick on
which the elapsed second and the battery percentage both equal the values last
rendered makes no call of either function. -/
theorem hud_regenerated_once (front right : Vec3 ℝ) (boxes : List (BoundingBox ℝ))
    (ticks : List (ℝ × Keys)) (hmono : List.Sorted (· ≤ ·) (ticks.map Prod.fst)) :
    (runLoop boxes (initLoop front right) ticks).timerCalls.Nodup ∧
    (runLoop boxes (initLoop front right) ticks).batteryCalls.Nodup ∧
    ∀ tick : ℝ × Keys,
      (runLoop boxes (initLoop front right) ticks).timerCalls.getLast? =
        some (elapsedTime tick.1
          (initStartTime tick.1 (runLoop boxes (initLoop front right) ticks))) →
      (runLoop boxes (initLoop front right) ticks).batteryCalls.getLast? =
        some (batteryUpdate tick.1
          (runLoop boxes (initLoop front right) ticks)).world.drone.batteryPercent →
      (mainLoopTick boxes (runLoop boxes (initLoop front right) ticks) tick).timerCalls =
        (runLoop boxes (initLoop front right) ticks).timerCalls ∧
      (mainLoopTick boxes (runLoop boxes (initLoop front right) ticks) tick).batteryCalls =
        (runLoop boxes (initLoop front right) ticks).batteryCalls := by
  obtain ⟨⟨t1, htimer⟩, hbat⟩ := hudInv_reachable front right boxes ticks hmono
  generalize runLoop boxes (initLoop front right) ticks = s at htimer hbat ⊢
  obtain ⟨hsortedT, hcaseT⟩ := htimer
  obtain ⟨_, hlbp, hsortedB, _, hcaseB⟩ := hbat
  refine ⟨hsortedT.nodup, hsortedB.nodup, ?_⟩
  intro tick hT hB
  constructor
  · rw [mainLoopTick_timerCalls]
    rcases hcaseT with ⟨hnil, _, _⟩ | ⟨_, _, e, hlast, _, _, hls, _⟩
    · rw [hnil] at hT
      exact absurd hT (by simp)
    · rw [hlast] at hT
      have he : e = elapsedTime tick.1 (initStartTime tick.1 s) := Option.some.inj hT
      rw [if_neg]
      rw [hls, he]
      exact not_not.mpr rfl
  · rw [mainLoopTick_batteryCalls]
    rcases hcaseB with ⟨_, hnil⟩ | ⟨hnz, hlast⟩
    · rw [hnil] at hB
      exact absurd hB (by simp)
    · rw [hlast] at hB
      have hb : s.world.drone.batteryPercent = (batteryUpdate tick.1 s).world.drone.batteryPercent :=
        Option.some.inj hB
      rw [if_neg]
      rw [not_or, not_not]
      exact ⟨by rw [hlbp]; exact hb.symm, hnz⟩

/-- Witness of C10: ticks at 0, 0.5 and 7 seconds. -/
theorem hud_regenerated_once_witness :
    (runLoop [] (initLoop ⟨0, 0, -1⟩ ⟨1, 0, 0⟩)
      [((0 : ℝ), noKeys), (1 / 2, keyW), (7, noKeys)]).timerCalls.Nodup ∧
    (runLoop [] (initLoop ⟨0, 0, -1⟩ ⟨1, 0, 0⟩)
      [((0 : ℝ), noKeys), (1 / 2, keyW), (7, noKeys)]).batteryCalls.Nodup :=
  ⟨(hud_regenerated_once ⟨0, 0, -1⟩ ⟨1, 0, 0⟩ [] [((0 : ℝ), noKeys), (1 / 2, keyW), (7, noKeys)]
      (by simp [List.Sorted]; norm_num)).1,
   (hud_regenerated_once ⟨0, 0, -1⟩ ⟨1, 0, 0⟩ [] [((0 : ℝ), noKeys), (1 / 2, keyW), (7, noKeys)]
      (by simp [List.Sorted]; norm_num)).2.1⟩

section FrictionLemmas

/-- With no direction key pressed the accumulated direction is the zero vector. -/
theorem inputDir_no_keys {K : Type} [LinearOrderedField K] (cam : Camera K) (k : Keys)
    (hw : k.w = false) (hs : k.s = false) (ha : k.a = false) (hd : k.d = false)
    (he : k.e = false) (hq : k.q = false) : inputDir cam k = Vec3.splat 0 := by
  simp [inputDir, hw, hs, ha, hd, he, hq]

/-- With no direction key pressed the acceleration step leaves the velocity as it is. -/
theorem accelerate_no_keys (cam : Camera ℝ) (k : Keys) (vel : Vec3 ℝ) (dt : ℝ)
    (hw : k.w = false) (hs : k.s = false) (ha : k.a = false) (hd : k.d = false)
    (he : k.e = false) (hq : k.q = false) : accelerate (inputDir cam k) vel dt = vel := by
  rw [inputDir_no_keys cam k hw hs ha hd he hq]
  have h0 : ¬ (Vec3.length (Vec3.splat (0 : ℝ)) > 0) := by
    simp [Vec3.length, Vec3.dot, Vec3.splat, GlmSqrt.sqrt]
  unfold accelerate
  rw [if_neg h0]

/-- The squared length after friction is `FRICTION ^ 2` times the squared length before. -/
theorem dot_applyFriction_eq (v : Vec3 ℝ) :
    Vec3.dot (applyFriction v) (applyFriction v) = (94 / 100) ^ 2 * Vec3.dot v v := by
  simp only [Vec3.dot, applyFriction, Vec3.scale, FRICTION]
  ring

/-- A vector other than the zero vector has positive squared length. -/
theorem dot_self_pos (v : Vec3 ℝ) (h : v ≠ Vec3.splat 0) : 0 < Vec3.dot v v := by
  have hx := mul_self_nonneg v.x
  have hy := mul_self_nonneg v.y
  have hz := mul_self_nonneg v.z
  have hnn : 0 ≤ Vec3.dot v v := by
    simp only [Vec3.dot]
    linarith
  rcases lt_or_eq_of_le hnn with hlt | heq
  · exact hlt
  · exfalso
    apply h
    simp only [Vec3.dot] at heq
    have h1 : v.x * v.x = 0 := by linarith
    have h2 : v.y * v.y = 0 := by linarith
    have h3 : v.z * v.z = 0 := by linarith
    ext
    · exact mul_self_eq_zero.mp h1
    · exact mul_self_eq_zero.mp h2
    · exact mul_self_eq_zero.mp h3

/-- Clamp followed by friction strictly shortens every non-zero velocity. -/
theorem dot_friction_clamp_lt (v : Vec3 ℝ) (h : v ≠ Vec3.splat 0) :
    Vec3.dot (applyFriction (clampSpeed v)) (applyFriction (clampSpeed v)) < Vec3.dot v v := by
  have hpos := dot_self_pos v h
  rw [dot_applyFriction_eq]
  by_cases hfast : Vec3.length v > MAX_SPEED
  · have h12 : (12 : ℝ) < Real.sqrt (Vec3.dot v v) := hfast
    have h144 : (12 : ℝ) ^ 2 < Vec3.dot v v := (Real.lt_sqrt (by norm_num)).mp h12
    have hc := dot_clampSpeed_le v
    nlinarith
  · have hc : clampSpeed v = v := by
      unfold clampSpeed
      rw [if_neg hfast]
    rw [hc]
    nlinarith

end FrictionLemmas

/-- C11: for every tick of `processInput` with no direction key pressed and
`dt > 0`, over the reals: if the pre-tick velocity `v` is not the zero vector
the post-tick velocity is strictly shorter, and when the move is not rejected
by a collision (ghost mode on, or no box hit by the candidate) and
`|v| <= MAX_SPEED`, the post-tick velocity is exactly `v * FRICTION`, that is
`0.94 * v`. -/
theorem processInput_friction_decay (w : World ℝ) (k : Keys) (dt : ℝ) (hdt : 0 < dt)
    (boxes : List (BoundingBox ℝ))
    (hw : k.w = false) (hs : k.s = false) (ha : k.a = false) (hd : k.d = false)
    (he : k.e = false) (hq : k.q = false) :
    (w.drone.velocity ≠ Vec3.splat 0 →
      Vec3.length (processInput w k dt boxes).drone.velocity < Vec3.length w.drone.velocity) ∧
    ((k.mouseMiddle = true ∨ hitsAny (candidate w k dt) boxes = false) →
      Vec3.length w.drone.velocity ≤ MAX_SPEED →
      (processInput w k dt boxes).drone.velocity = Vec3.scale w.drone.velocity FRICTION ∧
      Vec3.scale w.drone.velocity FRICTION =
        ⟨w.drone.velocity.x * (94 / 100), w.drone.velocity.y * (94 / 100),
         w.drone.velocity.z * (94 / 100)⟩) := by
  have hvel : integratedVelocity w k dt = applyFriction (clampSpeed w.drone.velocity) := by
    unfold integratedVelocity
    rw [accelerate_no_keys w.camera k w.drone.velocity dt hw hs ha hd he hq]
  constructor
  · intro hne
    have hpos := dot_self_pos _ hne
    have hlt := dot_friction_clamp_lt _ hne
    unfold processInput
    simp only []
    split_ifs with hhit
    · show Real.sqrt _ < Real.sqrt _
      apply Real.sqrt_lt_sqrt
      · simp [Vec3.dot, Vec3.splat]
      · simpa [Vec3.dot, Vec3.splat] using hpos
    · show Real.sqrt _ < Real.sqrt _
      apply Real.sqrt_lt_sqrt
      · rw [hvel, dot_applyFriction_eq]
        have := dot_clampSpeed_le w.drone.velocity
        have hx := mul_self_nonneg (clampSpeed w.drone.velocity).x
        have hy := mul_self_nonneg (clampSpeed w.drone.velocity).y
        have hz := mul_self_nonneg (clampSpeed w.drone.velocity).z
        simp only [Vec3.dot]
        nlinarith
      · rw [hvel]
        exact hlt
  · intro hfree hslow
    have hclamp : clampSpeed w.drone.velocity = w.drone.velocity := by
      unfold clampSpeed
      rw [if_neg (not_lt.mpr hslow)]
    have hc : (!k.mouseMiddle && hitsAny (Vec3.add w.camera.Position
        (Vec3.scale (integratedVelocity w k dt) dt)) boxes) = false := by
      rcases hfree with hg | hmiss
      · simp [hg]
      · have hmiss2 : hitsAny (Vec3.add w.camera.Position
            (Vec3.scale (integratedVelocity w k dt) dt)) boxes = false := hmiss
        simp [hmiss2]
    refine ⟨?_, rfl⟩
    simp only [processInput, hc]
    show integratedVelocity w k dt = _
    rw [hvel, hclamp]
    rfl

/-- Witness of C11: coasting at `(3, 0, 4)` with no key pressed and no box. -/
theorem processInput_friction_decay_witness :
    Vec3.length (processInput (coastingWorld : World ℝ) noKeys 1 []).drone.velocity
        < Vec3.length (coastingWorld : World ℝ).drone.velocity ∧
    (processInput (coastingWorld : World ℝ) noKeys 1 []).drone.velocity
        = Vec3.scale (coastingWorld : World ℝ).drone.velocity FRICTION :=
  ⟨(processInput_friction_decay coastingWorld noKeys 1 (by norm_num) [] rfl rfl rfl rfl rfl rfl).1
      (by
        intro h
        have hx := congrArg Vec3.x h
        norm_num [coastingWorld, Vec3.splat] at hx),
   ((processInput_friction_decay coastingWorld noKeys 1 (by norm_num) [] rfl rfl rfl rfl rfl rfl).2
      (Or.inr rfl)
      (by
        show Real.sqrt _ ≤ (12 : ℝ)
        rw [Real.sqrt_le_left (by norm_num)]
        norm_num [coastingWorld, Vec3.dot])).1⟩

/-- C12: across any sequence of main-loop ticks with arbitrary timestamps,
starting at 100, the battery percentage stays within `[0, 100]` and never
increases from one tick to the next; a tick on which the decrement fires sets
it to `b - 1`, or to `0` when `b - 1` would be below `0`, and a tick on which
it does not fire leaves it unchanged. -/
theorem battery_monotone_clamped {K : Type} [LinearOrderedField K] [FloorRing K] [GlmSqrt K]
    (front right : Vec3 K) (boxes : List (BoundingBox K)) (ticks : List (K × Keys))
    (tick : K × Keys) :
    let s := runLoop boxes (initLoop front right) ticks
    let b := s.world.drone.batteryPercent
    let b1 := (mainLoopTick boxes s tick).world.drone.batteryPercent
    (initLoop front right).world.drone.batteryPercent = 100 ∧
    mainLoopTick boxes s tick = runLoop boxes (initLoop front right) (ticks ++ [tick]) ∧
    0 ≤ b ∧ b ≤ 100 ∧ 0 ≤ b1 ∧ b1 ≤ 100 ∧ b1 ≤ b ∧
    (tick.1 - s.lastBatteryUpdate > 6 → b1 = if b - 1 < 0 then 0 else b - 1) ∧
    (¬ (tick.1 - s.lastBatteryUpdate > 6) → b1 = b) := by
  intro s b b1
  obtain ⟨j, hj, hb, _⟩ := batteryInv_runLoop boxes ticks (initLoop front right) []
    (batteryInv_initLoop front right [])
  have hjK : (j : K) ≤ 100 := by exact_mod_cast hj
  have hj0 : (0 : K) ≤ (j : K) := Nat.cast_nonneg j
  have hb' : b = 100 - (j : K) := hb
  have hb0 : 0 ≤ b := by rw [hb']; linarith
  have hb100 : b ≤ 100 := by rw [hb']; linarith
  have hstep : b1 = if tick.1 - s.lastBatteryUpdate > 6 then stdMax 0 (b - 1) else b :=
    mainLoopTick_batteryPercent boxes s tick
  have hmax : stdMax 0 (b - 1) = if b - 1 < 0 then 0 else b - 1 := by
    unfold stdMax
    split_ifs with h1 h2 h2
    · exact absurd h2 (not_lt.mpr h1.le)
    · rfl
    · rfl
    · have : b - 1 = 0 := le_antisymm (not_lt.mp h1) (not_lt.mp h2)
      exact this.symm
  have hmax0 : 0 ≤ stdMax 0 (b - 1) := by
    rw [hmax]
    split_ifs with h1
    · exact le_refl _
    · exact not_lt.mp h1
  have hmaxle : stdMax 0 (b - 1) ≤ b := by
    rw [hmax]
    split_ifs with h1
    · exact hb0
    · linarith
  refine ⟨rfl, ?_, hb0, hb100, ?_, ?_, ?_, ?_, ?_⟩
  · show mainLoopTick boxes (runLoop boxes (initLoop front right) ticks) tick = _
    simp [runLoop, List.foldl_append]
  · rw [hstep]; split_ifs
    · exact hmax0
    · exact hb0
  · rw [hstep]; split_ifs
    · exact le_trans hmaxle hb100
    · exact hb100
  · rw [hstep]; split_ifs
    · exact hmaxle
    · exact le_refl _
  · intro hfire
    rw [hstep, if_pos hfire, hmax]
  · intro hno
    rw [hstep, if_neg hno]

/-- Witness of C12: the first tick, at 7 seconds, fires the decrement from 100,
and a first tick at 3 seconds does not. -/
theorem battery_monotone_clamped_witness :
    (mainLoopTick [] (runLoop [] (initLoop ⟨0, 0, -1⟩ ⟨1, 0, 0⟩ : Loop ℝ) [])
        ((7 : ℝ), noKeys)).world.drone.batteryPercent =
      (if (runLoop [] (initLoop ⟨0, 0, -1⟩ ⟨1, 0, 0⟩ : Loop ℝ) []).world.drone.batteryPercent - 1 < 0
        then 0
        else (runLoop [] (initLoop ⟨0, 0, -1⟩ ⟨1, 0, 0⟩ : Loop ℝ) []).world.drone.batteryPercent - 1) ∧
    (mainLoopTick [] (runLoop [] (initLoop ⟨0, 0, -1⟩ ⟨1, 0, 0⟩ : Loop ℝ) [])
        ((3 : ℝ), noKeys)).world.drone.batteryPercent =
      (runLoop [] (initLoop ⟨0, 0, -1⟩ ⟨1, 0, 0⟩ : Loop ℝ) []).world.drone.batteryPercent :=
  ⟨(battery_monotone_clamped (⟨0, 0, -1⟩ : Vec3 ℝ) ⟨1, 0, 0⟩ [] []
      ((7 : ℝ), noKeys)).2.2.2.2.2.2.2.1
      (by
        show (7 : ℝ) - 0 > 6
        norm_num),
   (battery_monotone_clamped (⟨0, 0, -1⟩ : Vec3 ℝ) ⟨1, 0, 0⟩ [] []
      ((3 : ℝ), noKeys)).2.2.2.2.2.2.2.2
      (by
        show ¬ ((3 : ℝ) - 0 > 6)
        norm_num)⟩

/-- The scan over the boxes gives the same answer on any reordering of the list. -/
theorem hitsAny_perm {K : Type} [LinearOrderedField K] (p : Vec3 K)
    (boxes1 boxes2 : List (BoundingBox K)) (hperm : List.Perm boxes1 boxes2) :
    hitsAny p boxes1 = hitsAny p boxes2 := by
  rw [Bool.eq_iff_iff, hitsAny_iff, hitsAny_iff]
  constructor
  · rintro ⟨box, hmem, hov⟩
    exact ⟨box, hperm.mem_iff.mp hmem, hov⟩
  · rintro ⟨box, hmem, hov⟩
    exact ⟨box, hperm.mem_iff.mpr hmem, hov⟩

/-- C13: the outcome of `processInput` does not depend on the order of
`collisionBoxes`: for every input state and every two box lists that are
permutations of each other, the resulting camera position and drone velocity
are equal (indeed the whole resulting state is). -/
theorem processInput_box_order {K : Type} [LinearOrderedField K] [GlmSqrt K]
    (w : World K) (k : Keys) (dt : K) (boxes1 boxes2 : List (BoundingBox K))
    (hperm : List.Perm boxes1 boxes2) :
    (processInput w k dt boxes1).camera.Position = (processInput w k dt boxes2).camera.Position ∧
    (processInput w k dt boxes1).drone.velocity = (processInput w k dt boxes2).drone.velocity ∧
    processInput w k dt boxes1 = processInput w k dt boxes2 := by
  have h : processInput w k dt boxes1 = processInput w k dt boxes2 := by
    unfold processInput
    simp only []
    rw [hitsAny_perm _ boxes1 boxes2 hperm]
  exact ⟨by rw [h], by rw [h], h⟩

/-- Witness of C13: two boxes in either order, the forward key held. -/
theorem processInput_box_order_witness :
    (processInput (sampleWorld : World ℝ) keyW 1 [sideBox, spawnBox]).camera.Position =
      (processInput (sampleWorld : World ℝ) keyW 1 [spawnBox, sideBox]).camera.Position ∧
    (processInput (sampleWorld : World ℝ) keyW 1 [sideBox, spawnBox]).drone.velocity =
      (processInput (sampleWorld : World ℝ) keyW 1 [spawnBox, sideBox]).drone.velocity ∧
    processInput (sampleWorld : World ℝ) keyW 1 [sideBox, spawnBox] =
      processInput (sampleWorld : World ℝ) keyW 1 [spawnBox, sideBox] :=
  processInput_box_order sampleWorld keyW 1 [sideBox, spawnBox] [spawnBox, sideBox]
    (List.Perm.swap spawnBox sideBox [])

end Proyecto
